import Mathlib

/-!
Verification of the metadata / reference-tracking core of a content-addressed
package store (the `libstore` layer: `store-api.cc`, `local-store.cc`).

The embedding is shallow: C++ functions become Lean functions, the Berkeley-DB
style key/value backend becomes association lists inside a `Store` record,
code that throws becomes `Except Err`.  External collaborators that are not
part of the sources (the KV backend's composite-key helpers, the archive
codec, the derivation parser, the filesystem, hashing) are modelled as
oracles in an `Env` record or, where the behaviour matters, modelled from the
specification and marked as such in the doc comment.
-/

namespace NixStore

/-- File system paths are strings, as in the source (`typedef string Path`). -/
abbrev Path := String

/-- Error taxonomy: one constructor per distinct `throw` site that the
embedded code can reach.  The names follow the spec's error kinds. -/
inductive Err where
  | illegalName (name : String)
  | invalidChar (c : Char) (name : String)
  | notInStore (p : Path)
  | notInStateStore (p : Path)
  | invalidReference (p j : Path)
  | setRefsInvalid (p : Path)
  | notValidCompOrState (p : Path)
  | notValid (p : Path)
  | stateDeriverMisuse (d : Path)
  | emptyUser (p : Path)
  | notStatePathDrv (p : Path)
  | pathInUse (p q : Path)
  | noTimestampForRevision (r : Nat)
  | malformedSubstitute
  | wrongFormat
  | signatureMissing
  | signatureMismatch
  | corruptHash (p : Path)
  | unknownHashType (p : Path)
  | contentsMissing (p : Path)
  deriving DecidableEq, Repr

instance exceptDecEq {ε α : Type} [DecidableEq ε] [DecidableEq α] :
    DecidableEq (Except ε α)
  | .error e, .error e' =>
      if h : e = e' then .isTrue (by rw [h])
      else .isFalse (by intro hc; cases hc; exact h rfl)
  | .error _, .ok _ => .isFalse (by intro hc; cases hc)
  | .ok _, .error _ => .isFalse (by intro hc; cases hc)
  | .ok a, .ok b =>
      if h : a = b then .isTrue (by rw [h])
      else .isFalse (by intro hc; cases hc; exact h rfl)

@[simp] theorem except_bind_ok {ε α β : Type} (a : α) (f : α → Except ε β) :
    ((Except.ok a : Except ε α) >>= f) = f a := rfl

@[simp] theorem except_bind_error {ε α β : Type} (e : ε) (f : α → Except ε β) :
    ((Except.error e : Except ε α) >>= f) = Except.error e := rfl

@[simp] theorem except_pure_eq {ε α : Type} (a : α) :
    (pure a : Except ε α) = Except.ok a := rfl

@[simp] theorem except_map_ok {ε α β : Type} (g : α → β) (a : α) :
    (g <$> (Except.ok a : Except ε α)) = Except.ok (g a) := rfl

@[simp] theorem except_map_error {ε α β : Type} (g : α → β) (e : ε) :
    (g <$> (Except.error e : Except ε α)) = Except.error e := rfl

/-- The `(stateIdentifier, owner, componentHash, statepath)` record of a
derivation's `stateOutputs.find("state")->second`. -/
structure StateOutput where
  statepath : Path
  componentHash : String
  stateIdentifier : String
  username : String
  deriving DecidableEq, Repr, Inhabited

/-- The four facts the store core extracts from a parsed derivation:
`drv.outputs.size()`, the optional `"state"` entry of `drv.stateOutputs`,
and `drv.env.find("name")->second`. -/
structure Derivation where
  outputsCount : Nat
  stateOutput : Option StateOutput
  envName : String
  deriving DecidableEq, Repr, Inhabited

/-- One item of the export byte stream (serialise.cc / archive.cc are outside
these sources): the archive dump of a path, a 32-bit integer, a string, or a
string set, in the framing the serialiser gives them. -/
inductive Tok where
  | nar (c : String)
  | num (n : Nat)
  | str (s : String)
  | strs (l : List String)
  deriving DecidableEq, Repr

/-- Read-only environment: the configured roots and the external oracles
(the hash routines of `hash.cc`, the calling user, the derivation parser
`derivationFromPathTxn` living outside these sources, the string-packing
codec of the KV layer, and the signing helpers of the export path). -/
structure Env where
  nixStore : String
  nixStoreState : String
  hashString : String → String
  compressHash : String → Nat → String
  printHash : String → String
  printHash32 : String → String
  username : String
  drvs : Path → Derivation
  packStrings : List String → String
  hashSink : List Tok → String
  rsaSign : String → String
  rsaVerify : String → String

/-- Character at index `i`, as C++ `path[i]` (none past the end). -/
def charAt (s : String) (i : Nat) : Option Char := s.data.get? i

/-- `isInStore` of store-api.cc: lexical store-root prefix plus a non-empty
tail beginning with `/`. -/
def isInStore (env : Env) (path : Path) : Bool :=
  charAt path 0 == some '/'
    && path.take env.nixStore.length == env.nixStore
    && decide (path.length ≥ env.nixStore.length + 2)
    && charAt path env.nixStore.length == some '/'

/-- `isInStateStore` of store-api.cc. -/
def isInStateStore (env : Env) (path : Path) : Bool :=
  charAt path 0 == some '/'
    && path.take env.nixStoreState.length == env.nixStoreState
    && decide (path.length ≥ env.nixStoreState.length + 2)
    && charAt path env.nixStoreState.length == some '/'

/-- `path.find('/', pos) == npos`: no slash at index `pos` or later. -/
def noSlashFrom (path : Path) (pos : Nat) : Bool :=
  !((path.data.drop pos).contains '/')

/-- `isStorePath` of store-api.cc: in the store and no further `/`. -/
def isStorePath (env : Env) (path : Path) : Bool :=
  isInStore env path && noSlashFrom path (env.nixStore.length + 1)

/-- `isStatePath` of store-api.cc. -/
def isStatePath (env : Env) (path : Path) : Bool :=
  isInStateStore env path && noSlashFrom path (env.nixStoreState.length + 1)

/-- `assertStorePath` of store-api.cc. -/
def assertStorePath (env : Env) (path : Path) : Except Err Unit :=
  if isStorePath env path then .ok () else .error (.notInStore path)

/-- `assertStatePath` of store-api.cc. -/
def assertStatePath (env : Env) (path : Path) : Except Err Unit :=
  if isStatePath env path then .ok () else .error (.notInStateStore path)

/-- The extra characters allowed in store names (`validChars` in
`checkStoreName`). -/
def validChars : List Char := ['+', '-', '.', '_', '?', '=']

/-- One character of a store name is legal: `A-Z`, `a-z`, `0-9` or one of
`validChars`. -/
def storeNameChar (c : Char) : Bool :=
  if ('A' ≤ c ∧ c ≤ 'Z') ∨ ('a' ≤ c ∧ c ≤ 'z') ∨ ('0' ≤ c ∧ c ≤ '9') then true
  else validChars.contains c

/-- The character scan loop of `checkStoreName`, left to right. -/
def checkStoreNameChars (name : String) : List Char → Except Err Unit
  | [] => .ok ()
  | c :: cs =>
      if storeNameChar c then checkStoreNameChars name cs
      else .error (.invalidChar c name)

/-- `checkStoreName` of store-api.cc: reject names starting with `.`, then
reject any character outside the legal set. -/
def checkStoreName (name : String) : Except Err Unit :=
  if name.take 1 == "." then .error (.illegalName name)
  else checkStoreNameChars name name.data

/-- `makeStorePath` of store-api.cc.  The digest preimage is
`type ":sha256:" printHash(hash) ":" nixStore ":" suffix`; the result path is
`nixStore / printHash32(compressHash(hashString(s), 20)) - suffix`. -/
def makeStorePath (env : Env) (type : String) (hash : String) (suffix : String) :
    Except Err Path := do
  let s := type ++ ":sha256:" ++ env.printHash hash ++ ":"
      ++ env.nixStore ++ ":" ++ suffix
  checkStoreName suffix
  pure (env.nixStore ++ "/"
      ++ env.printHash32 (env.compressHash (env.hashString s) 20)
      ++ "-" ++ suffix)

/-- `makeStatePath` of store-api.cc.  The preimage is
`":sha256:" componentHash ":" nixStoreState ":" suffix ":" stateIdentifier
":" username`; the result appends `-suffix-stateIdentifier`. -/
def makeStatePath (env : Env) (componentHash suffix stateIdentifier : String) :
    Except Err Path := do
  let suffix_stateIdentifier := "-" ++ stateIdentifier
  let username := env.username
  let s := ":sha256:" ++ componentHash ++ ":" ++ env.nixStoreState ++ ":"
      ++ suffix ++ ":" ++ stateIdentifier ++ ":" ++ username
  checkStoreName suffix
  checkStoreName stateIdentifier
  pure (env.nixStoreState ++ "/"
      ++ env.printHash32 (env.compressHash (env.hashString s) 20)
      ++ "-" ++ suffix ++ suffix_stateIdentifier)

/-- `checkStatePath` of store-api.cc.  It recomputes the state path from the
derivation's fields and compares it with the declared one; the source
constructs `Error(format("... are u trying to spoof the statepath?"))` on a
mismatch but never throws it (the `Error` temporary is discarded), so the
comparison has no observable effect and the function returns normally. -/
def checkStatePath (env : Env) (drv : Derivation) : Except Err Unit := do
  let st := drv.stateOutput.getD default
  let drvPath := st.statepath
  let componentHash := st.componentHash
  let suffix := drv.envName
  let stateIdentifier := st.stateIdentifier
  let calculatedPath ← makeStatePath env componentHash suffix stateIdentifier
  let _mismatch := drvPath != calculatedPath
  pure ()

/-- A name is valid for `checkStoreName`: does not start with `.` and every
character is in the legal set. -/
def validStoreName (name : String) : Prop :=
  ¬ name.take 1 = "." ∧ ∀ c ∈ name.data, storeNameChar c = true

instance : DecidablePred validStoreName := fun name => by
  unfold validStoreName; infer_instance

theorem checkStoreNameChars_ok_iff (name : String) (cs : List Char) :
    checkStoreNameChars name cs = .ok () ↔ ∀ c ∈ cs, storeNameChar c = true := by
  induction cs with
  | nil => simp [checkStoreNameChars]
  | cons c cs ih =>
      simp only [checkStoreNameChars]
      by_cases h : storeNameChar c = true
      · simp [h, ih]
      · simp [h]

theorem checkStoreName_ok_iff (name : String) :
    checkStoreName name = .ok () ↔ validStoreName name := by
  unfold checkStoreName validStoreName
  by_cases h : name.take 1 = "."
  · simp [h]
  · simp [h, checkStoreNameChars_ok_iff]

theorem makeStorePath_ok_iff (env : Env) (type hash suffix : String) :
    (∃ p, makeStorePath env type hash suffix = .ok p) ↔ validStoreName suffix := by
  rw [← checkStoreName_ok_iff]
  unfold makeStorePath
  rcases hc : checkStoreName suffix with e | u
  · simp [hc]
  · cases u
    simp [hc]

theorem makeStorePath_ok_value (env : Env) (type hash suffix : String)
    (h : validStoreName suffix) :
    makeStorePath env type hash suffix =
      .ok (env.nixStore ++ "/"
        ++ env.printHash32 (env.compressHash
            (env.hashString (type ++ ":sha256:" ++ env.printHash hash ++ ":"
              ++ env.nixStore ++ ":" ++ suffix)) 20)
        ++ "-" ++ suffix) := by
  rw [← checkStoreName_ok_iff] at h
  unfold makeStorePath
  simp [h]

/-! ## The key/value backend and the store state

The embedded KV backend (db.cc, outside these sources; spec §4.2) offers
tables with single-string and multi-string values and full-table key
enumeration.  Tables are association lists; `setString`/`setStrings`
overwrite, `delPair` deletes, `enumTable` lists the keys.  The composite
`(state path, number)` keys built by `mergeToDBKey`/`splitDBKey` are
modelled as pairs (the split of a merge is the identity). -/

def tlookup {K V : Type} [BEq K] : List (K × V) → K → Option V
  | [], _ => none
  | e :: rest, k => if e.1 == k then some e.2 else tlookup rest k

def delPair {K V : Type} [BEq K] : List (K × V) → K → List (K × V)
  | [], _ => []
  | e :: rest, k => if e.1 == k then delPair rest k else e :: delPair rest k

def tset {K V : Type} [BEq K] (t : List (K × V)) (k : K) (v : V) : List (K × V) :=
  (k, v) :: delPair t k

def tkeys {K V : Type} (t : List (K × V)) : List K := t.map (·.1)

/-- `PathSet::insert`: add an element unless present. -/
def psInsert (xs : List Path) (x : Path) : List Path :=
  if xs.contains x then xs else xs ++ [x]

/-- The database state of a local store, one field per table opened by
`LocalStore::LocalStore`, plus the filesystem (existing paths with their
archive contents) and a clock for minting ext3cow timestamps. -/
structure Store where
  validPaths : List (Path × String) := []
  validStatePaths : List (Path × String) := []
  refsCC : List (Path × List Path) := []
  refsCS : List (Path × List Path) := []
  refsSC : List ((Path × Nat) × List Path) := []
  refsSS : List ((Path × Nat) × List Path) := []
  stateRevisions : List ((Path × Nat) × List (Path × Nat)) := []
  derivers : List (Path × List String) := []
  stateInfo : List (Path × String) := []
  substitutes : List (Path × List (List String)) := []
  sharedState : List (Path × Path) := []
  solidStateRefs : List (Path × List Path) := []
  stateCounters : List (Path × String) := []
  fsC : List (Path × String) := []
  now : Nat := 0
  deriving DecidableEq, Repr, Inhabited

/-- `isValidPathTxn`: a key in the validpaths table. -/
def isValidPathTxn (s : Store) (p : Path) : Bool := (tlookup s.validPaths p).isSome

/-- `isValidStatePathTxn`. -/
def isValidStatePathTxn (s : Store) (p : Path) : Bool :=
  (tlookup s.validStatePaths p).isSome

/-- `isValidComponentOrStatePathTxn`. -/
def isValidComponentOrStatePathTxn (s : Store) (p : Path) : Bool :=
  isValidPathTxn s p || isValidStatePathTxn s p

/-- `pathExists` of the filesystem. -/
def pathExists (s : Store) (p : Path) : Bool := (tlookup s.fsC p).isSome

/-- `hashPath(htSHA256, p)`: hash the archive dump of an on-disk path; the
digest routine is the `Env` oracle. -/
def hashPath (env : Env) (s : Store) (p : Path) : Except Err String :=
  match tlookup s.fsC p with
  | none => .error (.contentsMissing p)
  | some c => .ok (env.hashString c)

/-! ## Substitutes (spec §4.7) -/

/-- Decimal digits of a character. -/
def digitVal (c : Char) : Option Nat :=
  if 48 ≤ c.toNat ∧ c.toNat ≤ 57 then some (c.toNat - 48) else none

/-- Parse a non-empty all-digit character list. -/
def natFromDigits (ds : List Char) : Option Nat :=
  match ds with
  | [] => none
  | _ => ds.foldl (fun acc c => acc.bind (fun a => (digitVal c).map
      (fun d => a * 10 + d))) (some 0)

/-- `string2Int` of util.cc (outside these sources): parse an optionally
signed decimal integer, rejecting garbage. -/
def string2Int (s : String) : Option Int :=
  match s.data with
  | '-' :: ds => (natFromDigits ds).map (fun n => -(n : Int))
  | ds => (natFromDigits ds).map (fun n => (n : Int))

/-- Render a natural number in decimal (fuelled digit loop). -/
def natToStrAux : Nat → Nat → List Char
  | 0, _ => []
  | fuel + 1, n =>
      if n < 10 then [Char.ofNat (48 + n)]
      else natToStrAux fuel (n / 10) ++ [Char.ofNat (48 + n % 10)]

def natToStr (n : Nat) : String := String.mk (natToStrAux (n + 1) n)

/-- `format("%1%") % i` on an integer. -/
def intToStr (i : Int) : String :=
  match i with
  | .ofNat n => natToStr n
  | .negSucc n => "-" ++ natToStr (n + 1)

def substituteVersion : Int := 2

/-- A substitute record.  `args` holds the packed argv blob exactly as
stored in the row; the packing is injective, so comparing blobs agrees with
comparing the argv lists. -/
structure Substitute where
  deriver : Path
  program : Path
  args : String
  deriving DecidableEq, Repr, Inhabited

/-- `Substitute::operator==` compares only `program` and `args`. -/
def subEq (a b : Substitute) : Bool := a.program == b.program && a.args == b.args

/-- The parse loop of `readSubstitutes`.  A stored row is a list of
unpacked 4-string records `[version, deriver, program, packed-args]`; rows
this code writes are always new-style, so the byte-level old-style sentinel
test (`size < 4 || s[3] != 0`) is not representable and never fires here. -/
def readSubstitutesRow : List (List String) → Except Err (List Substitute)
  | [] => .ok []
  | ss2 :: rest =>
      if ss2.length == 0 then readSubstitutesRow rest
      else match string2Int (ss2.headD "") with
        | none => readSubstitutesRow rest
        | some version =>
            if version != substituteVersion then readSubstitutesRow rest
            else if ss2.length != 4 then .error .malformedSubstitute
            else do
              let subsRest ← readSubstitutesRow rest
              .ok ({ deriver := ss2.getD 1 "", program := ss2.getD 2 "",
                     args := ss2.getD 3 "" } :: subsRest)

/-- `readSubstitutes` of local-store.cc. -/
def readSubstitutes (s : Store) (srcPath : Path) : Except Err (List Substitute) :=
  readSubstitutesRow ((tlookup s.substitutes srcPath).getD [])

/-- `writeSubstitutes` of local-store.cc: serialise each substitute as
`[toString version, deriver, program, packed-args]` and overwrite the row. -/
def writeSubstitutes (s : Store) (srcPath : Path) (subs : List Substitute) : Store :=
  let ss := subs.map (fun sub =>
    [intToStr substituteVersion, sub.deriver, sub.program, sub.args])
  { s with substitutes := tset s.substitutes srcPath ss }

/-- `registerSubstitute` of local-store.cc.  When the substitute is already
present (under `Substitute::operator==`) the source returns at once — before
the code below it that would prepend; the subsequent
`remove(subs.begin(), subs.end(), sub)` is therefore reached only when `sub`
is absent, where it has no effect (std::remove also never resizes). -/
def registerSubstitute (env : Env) (s : Store) (srcPath : Path)
    (sub : Substitute) : Except Err Store := do
  assertStorePath env srcPath
  let subs ← readSubstitutes s srcPath
  if subs.any (fun x => subEq x sub) then
    return s
  else
    return writeSubstitutes s srcPath (sub :: subs)

/-- `querySubstitutes`. -/
def querySubstitutes (s : Store) (p : Path) : Except Err (List Substitute) :=
  readSubstitutes s p

/-- `isRealisablePath`: valid, or has substitutes (the second disjunct is
evaluated only when the first fails, as in the source — `readSubstitutes`
can throw). -/
def isRealisablePath (s : Store) (p : Path) : Except Err Bool := do
  if isValidPathTxn s p then pure true
  else do
    let subs ← readSubstitutes s p
    pure (subs.length > 0)

/-- `isRealisableStatePath`. -/
def isRealisableStatePath (s : Store) (p : Path) : Except Err Bool := do
  if isValidStatePathTxn s p then pure true
  else do
    let subs ← readSubstitutes s p
    pure (subs.length > 0)

/-- `isRealisableComponentOrStatePath`. -/
def isRealisableComponentOrStatePath (s : Store) (p : Path) : Except Err Bool := do
  if isValidComponentOrStatePathTxn s p then pure true
  else do
    let subs ← readSubstitutes s p
    pure (subs.length > 0)

/-! ## Shared state (spec §4.6) -/

/-- `querySharedStateTxn`. -/
def querySharedStateTxn (s : Store) (statePath : Path) : Option Path :=
  tlookup s.sharedState statePath

/-- The while-loop of `toNonSharedPathTxn`, with explicit fuel: the source
loops until the current path has no alias entry and diverges on an alias
cycle (invariant I5 is never checked); exhausted fuel returns the current
path, a state unreachable below the fuel chosen by `toNonSharedPathTxn`. -/
def toNonSharedPathAux (s : Store) : Nat → Path → Path
  | 0, p => p
  | fuel + 1, p =>
      match querySharedStateTxn s p with
      | none => p
      | some q => toNonSharedPathAux s fuel q

/-- `toNonSharedPathTxn`: follow SharedState links to a fixed point. -/
def toNonSharedPathTxn (s : Store) (p : Path) : Path :=
  toNonSharedPathAux s (s.sharedState.length + 1) p

/-- `setSharedStateTxn`: remove earlier entries keyed by `toNew`, then
record `toNew → fromExisting`. -/
def setSharedStateTxn (s : Store) (fromExisting toNew : Path) : Store :=
  { s with sharedState := tset (delPair s.sharedState toNew) toNew fromExisting }

/-! ## Revisions (spec §4.5) -/

/-- Modelled from the spec: `nixDB.revisionToTimeStamp` lives in the KV layer
(db.cc, not among the sources).  Spec §4.5: given `(P_s, r)`, return the
timestamp recorded for that member in revision `r`, or nothing when there is
no record. -/
def revisionToTimeStamp (s : Store) (statePath : Path) (revision : Nat) :
    Option Nat :=
  (tlookup s.stateRevisions (statePath, revision)).bind
    (fun closure => (closure.find? (fun e => e.1 == statePath)).map (·.2))

/-- The largest timestamp for which `tbl` has a `(p, t)` row. -/
def latestTimestamp (tbl : List ((Path × Nat) × List Path)) (p : Path) :
    Option Nat :=
  (tbl.filterMap (fun e => if e.1.1 == p then some e.1.2 else none)).max?

/-- Modelled from the spec: `nixDB.queryStateReferences` (db.cc, not among
the sources).  Spec §4.4: with an explicit timestamp read that row; with a
revision, translate `(P, r)` to the member's timestamp via the Revisions
table and read that row; with neither, read the row with the largest
timestamp. -/
def queryStateReferencesDB (s : Store) (tbl : List ((Path × Nat) × List Path))
    (p : Path) (revision : Nat) (timestamp : Nat) : Except Err (List Path) :=
  if timestamp != 0 then pure ((tlookup tbl (p, timestamp)).getD [])
  else if revision != 0 then
    match revisionToTimeStamp s p revision with
    | none => .error (.noTimestampForRevision revision)
    | some ts => pure ((tlookup tbl (p, ts)).getD [])
  else match latestTimestamp tbl p with
    | none => pure []
    | some ts => pure ((tlookup tbl (p, ts)).getD [])

/-- Modelled from the spec: `nixDB.setStateReferences` (db.cc, not among the
sources).  Spec §4.4: the write lands on the row `(P, t)` where `t` comes
from the revision, and a fresh timestamp (the clock) is used for revision 0. -/
def setStateReferencesT (s : Store) (tbl : List ((Path × Nat) × List Path))
    (p : Path) (refs : List Path) (revision : Nat) :
    Except Err (List ((Path × Nat) × List Path)) :=
  if revision == 0 then pure (tset tbl (p, s.now) refs)
  else match revisionToTimeStamp s p revision with
    | none => .error (.noTimestampForRevision revision)
    | some ts => pure (tset tbl (p, ts) refs)

/-! ## References (spec §4.4) -/

/-- Equality of `PathSet`s (the C++ compares `std::set`s, i.e. the
underlying sets of paths). -/
def pathSetEq (a b : List Path) : Bool :=
  a.all (fun x => b.contains x) && b.all (fun x => a.contains x)

/-- The leading guard of `setReferences`: a non-empty reference set may only
be written for a realisable path ("for unrealisable paths, we can only clear
the references"). -/
def setReferencesPre (s : Store) (p : Path) (references : List Path) :
    Except Err Unit :=
  if references.length > 0 then do
    let r ← isRealisableComponentOrStatePath s p
    if !r then throw (.setRefsInvalid p) else pure ()
  else pure ()

/-- `setReferences` of local-store.cc. -/
def setReferences (env : Env) (s : Store) (p : Path)
    (references stateReferences : List Path) (revision : Nat) :
    Except Err Store := do
  let _pre ← setReferencesPre s p references
  let rp ← isRealisablePath s p
  if rp then do
    let old_cc := (tlookup s.refsCC p).getD []
    let old_cs := (tlookup s.refsCS p).getD []
    if pathSetEq old_cc references && pathSetEq old_cs stateReferences then
      return s
    else
      return { s with refsCC := tset s.refsCC p references,
                      refsCS := tset s.refsCS p stateReferences }
  else do
    let rsp ← isRealisableStatePath s p
    if rsp then do
      let _oldSC ← queryStateReferencesDB s s.refsSC p revision 0
      let _oldSS ← queryStateReferencesDB s s.refsSS p revision 0
      let newSC ← setStateReferencesT s s.refsSC p references revision
      let newSS ← setStateReferencesT s s.refsSS p stateReferences revision
      return { s with refsSC := newSC, refsSS := newSS }
    else throw (.notValidCompOrState p)

/-- `queryXReferencesTxn` of local-store.cc: component rows for realisable
component paths; alias-dereferenced, revision-selected state rows for
realisable state paths. -/
def queryXReferencesTxn (env : Env) (s : Store) (p : Path)
    (component_or_state : Bool) (revision : Nat) (timestamp : Nat := 0) :
    Except Err (List Path) := do
  let rp ← isRealisablePath s p
  if rp then
    pure ((tlookup (if component_or_state then s.refsCC else s.refsCS) p).getD [])
  else do
    let rsp ← isRealisableStatePath s p
    if rsp then do
      let p_ns := toNonSharedPathTxn s p
      queryStateReferencesDB s (if component_or_state then s.refsSC else s.refsSS)
        p_ns revision timestamp
    else throw (.notValidCompOrState p)

/-- `getXReferrers` of local-store.cc.  Component-keyed tables are scanned
key by key; state-keyed tables first pick, per candidate state path, the
"latest" row.  In the source the bound `getRevision <= timestamp` (flagged
in-source as comparing a revision to a timestamp) guards two identical
assignments, so the selection is always simply the largest timestamp. -/
def getXReferrers (env : Env) (s : Store) (p : Path)
    (component_or_state : Bool) (revision : Nat) : Except Err (List Path) := do
  let _chk ← (if !(isValidPathTxn s p) && !(isValidStatePathTxn s p) then
      throw (.notValidCompOrState p)
    else pure () : Except Err Unit)
  if component_or_state then do
    let (path, table) :=
      if isValidPathTxn s p then (p, s.refsCC)
      else (toNonSharedPathTxn s p, s.refsCS)
    let referrers := (tkeys table).foldl (fun acc k =>
        let references := (tlookup table k).getD []
        references.foldl (fun acc2 j => if j == path then psInsert acc2 k else acc2)
          acc) []
    pure referrers
  else do
    let (path, table) :=
      if isValidPathTxn s p then (p, s.refsSC)
      else (toNonSharedPathTxn s p, s.refsSS)
    let timestamp ← (if revision != 0 then
        match revisionToTimeStamp s path revision with
        | none => throw (.noTimestampForRevision revision)
        | some t => pure t
      else pure 0)
    let latest := (tkeys table).foldl (fun (m : List (Path × Nat)) k =>
        let getStatePath := k.1
        let getRevision := k.2
        let cur := ((tlookup m getStatePath).getD 0)
        if cur == 0 then tset m getStatePath getRevision
        else if cur < getRevision then
          if revision != 0 && getRevision ≤ timestamp then
            tset m getStatePath getRevision
          else
            tset m getStatePath getRevision
        else m) []
    let referrers := latest.foldl (fun acc e =>
        let references := (tlookup table (e.1, e.2)).getD []
        references.foldl (fun acc2 j => if j == path then psInsert acc2 e.1 else acc2)
          acc) []
    pure referrers

/-- `getReferrersTxn`. -/
def getReferrersTxn (env : Env) (s : Store) (p : Path) (revision : Nat) :
    Except Err (List Path) :=
  getXReferrers env s p true revision

/-- `getStateReferrersTxn`. -/
def getStateReferrersTxn (env : Env) (s : Store) (p : Path) (revision : Nat) :
    Except Err (List Path) :=
  getXReferrers env s p false revision

/-- `queryReferrersTxn`. -/
def queryReferrersTxn (env : Env) (s : Store) (p : Path) (revision : Nat) :
    Except Err (List Path) := do
  let r ← isRealisableComponentOrStatePath s p
  if !r then throw (.notValid p)
  else getReferrersTxn env s p revision

/-- `queryStateReferrersTxn`. -/
def queryStateReferrersTxn (env : Env) (s : Store) (p : Path) (revision : Nat) :
    Except Err (List Path) := do
  let r ← isRealisableComponentOrStatePath s p
  if !r then throw (.notValid p)
  else getStateReferrersTxn env s p revision

/-! ## Derivers (spec §4.7) -/

/-- `isStateDrv`: `drv.stateOutputs.size() != 0`. -/
def isStateDrv (drv : Derivation) : Bool := drv.stateOutput.isSome

/-- `isStateDrvPathTxn`: parse the derivation (env oracle) and test. -/
def isStateDrvPathTxn (env : Env) (drvPath : Path) : Bool :=
  isStateDrv (env.drvs drvPath)

/-- The `->second` accessor on `stateOutputs.find("state")` (the source
dereferences without checking presence). -/
def stateOutputOf (drv : Derivation) : StateOutput := drv.stateOutput.getD default

/-- The filter loop of `queryDerivers` over the stored deriver row. -/
def queryDeriversLoop (env : Env) (storePath : Path) (identifier user : String) :
    List String → List Path → Except Err (List Path)
  | [], filtereddata => pure filtereddata
  | derivationpath :: rest, filtereddata =>
      if (env.drvs derivationpath).outputsCount != 1 then
        throw (.notStatePathDrv storePath)
      else if ((stateOutputOf (env.drvs derivationpath)).stateIdentifier == identifier
            || identifier == "*")
          && ((stateOutputOf (env.drvs derivationpath)).username == user
            || user == "*") then
        queryDeriversLoop env storePath identifier user rest
          (psInsert filtereddata derivationpath)
      else queryDeriversLoop env storePath identifier user rest filtereddata

/-- `queryDerivers` of local-store.cc: filter the deriver row on
`(stateIdentifier, username)`, `"*"` acting as a wildcard. -/
def queryDerivers (env : Env) (s : Store) (storePath : Path)
    (identifier user : String) : Except Err (List Path) := do
  let rp ← isRealisablePath s storePath
  if !rp then throw (.notValid storePath)
  else if user == "" then throw (.emptyUser storePath)
  else
    let alldata := (tlookup s.derivers storePath).getD []
    queryDeriversLoop env storePath identifier user alldata []

/-- `mergeNewDerivationIntoListTxn` of local-store.cc: drop (and, when
`deleteDrvs`, delete from disk) every existing deriver sharing the new
one's `(stateIdentifier, username)` pair, keep the others, insert the new
one. -/
def mergeNewDerivationIntoListTxn (env : Env) (s : Store)
    (storepath newdrv : Path) (drvs0 : List Path) (deleteDrvs : Bool) :
    Store × List Path :=
  let drv := env.drvs newdrv
  let identifier := (stateOutputOf drv).stateIdentifier
  let user := (stateOutputOf drv).username
  let step := drvs0.foldl (fun (acc : Store × List Path) d =>
      let getdrv := env.drvs d
      let getIdentifier := (stateOutputOf getdrv).stateIdentifier
      let getUser := (stateOutputOf getdrv).username
      if identifier == getIdentifier && getUser == user then
        if d != newdrv && deleteDrvs then
          ({ acc.1 with fsC := delPair acc.1.fsC d }, acc.2)
        else acc
      else (acc.1, psInsert acc.2 d)) (s, [])
  (step.1, psInsert step.2 newdrv)

/-- `addStateDeriver` of local-store.cc. -/
def addStateDeriver (env : Env) (s : Store) (storePath deriver : Path) :
    Except Err Store := do
  let _a ← assertStorePath env storePath
  if deriver == "" then return s
  else do
    let _b ← assertStorePath env deriver
    let rp ← isRealisablePath s storePath
    if !rp then throw (.notValid storePath)
    else
      let drv := env.drvs deriver
      let identifier := (stateOutputOf drv).stateIdentifier
      let user := (stateOutputOf drv).username
      do
        let currentDerivers ← queryDerivers env s storePath identifier user
        let merged := mergeNewDerivationIntoListTxn env s storePath deriver
            currentDerivers true
        let s2 := { merged.1 with
          derivers := tset merged.1.derivers storePath merged.2 }
        return { s2 with stateInfo := tset s2.stateInfo storePath "" }

/-- `nixDB.queryString` on the mixed-use derivers table: a singleton row
(written by `setString`) reads back as its value; a multi-valued row
(written by `setStrings`) reads back as its packed bytes. -/
def queryStringMulti (env : Env) (row : Option (List String)) : Bool × String :=
  match row with
  | none => (false, "")
  | some [v] => (true, v)
  | some l => (true, env.packStrings l)

/-- `queryDeriver` (static, local-store.cc): read the deriver row, then parse
it and refuse state derivers. -/
def queryDeriver (env : Env) (s : Store) (storePath : Path) : Except Err Path := do
  let rp ← isRealisablePath s storePath
  if !rp then throw (.notValid storePath)
  else
    let pr := queryStringMulti env (tlookup s.derivers storePath)
    let drv := env.drvs pr.2
    if isStateDrv drv then throw (.stateDeriverMisuse pr.2)
    else if pr.1 then return pr.2 else return ""

/-- `setDeriver` of local-store.cc: state derivers are redirected to
`addStateDeriver`, others overwrite the single-valued row. -/
def setDeriver (env : Env) (s : Store) (storePath deriver : Path) :
    Except Err Store := do
  let _a ← assertStorePath env storePath
  if deriver == "" then return s
  else do
    let _b ← assertStorePath env deriver
    let rp ← isRealisablePath s storePath
    if !rp then throw (.notValid storePath)
    else if isStateDrvPathTxn env deriver then
      addStateDeriver env s storePath deriver
    else return { s with derivers := tset s.derivers storePath [deriver] }

/-! ## Validity registration (spec §4.3) -/

/-- `setHash`: record `"sha256:" + printHash(hash)` for a component path. -/
def setHash (env : Env) (s : Store) (storePath : Path) (hash : String) : Store :=
  let v := "sha256:" ++ env.printHash hash
  { s with validPaths := tset s.validPaths storePath v }

/-- `setStateValid`: record the producing derivation for a state path. -/
def setStateValid (s : Store) (statePath drvPath : Path) : Store :=
  { s with validStatePaths := tset s.validStatePaths statePath drvPath }

/-- `queryHash` (static, local-store.cc): parse the `type:hash` value of the
validity row; no colon and unknown hash types are errors. -/
def queryHash (s : Store) (storePath : Path) : Except Err String := do
  let v := (tlookup s.validPaths storePath).getD ""
  match v.data.indexOf? ':' with
  | none => throw (.corruptHash storePath)
  | some i =>
      let ht := String.mk (v.data.take i)
      let rest := String.mk (v.data.drop (i + 1))
      if ht == "md5" || ht == "sha1" || ht == "sha256" then return rest
      else throw (.unknownHashType storePath)

/-- The `ValidPathInfo` record of store-api.hh as used by registration. -/
structure ValidPathInfo where
  path : Path
  hash : String := ""
  references : List Path := []
  stateReferences : List Path := []
  revision : Nat := 0
  deriver : Path := ""
  deriving DecidableEq, Repr, Inhabited

/-- The closure check inside `registerValidPaths`: every component reference
must be valid already or about to become valid (in the batch). -/
def checkRefsValid (s : Store) (newPaths : List Path) (ipath : Path) :
    List Path → Except Err Unit
  | [] => .ok ()
  | j :: rest =>
      if !(isValidPathTxn s j) && !(newPaths.contains j) then
        .error (.invalidReference ipath j)
      else checkRefsValid s newPaths ipath rest

/-- The body of `registerValidPaths`' loop for a single info. -/
def registerOne (env : Env) (newPaths : List Path) (s : Store)
    (i : ValidPathInfo) : Except Err Store := do
  let isStorePath_b ←
    (if isStorePath env i.path then do
      assertStorePath env i.path
      pure true
    else do
      assertStatePath env i.path
      pure false : Except Err Bool)
  let s1 := if isStorePath_b then setHash env s i.path i.hash
            else setStateValid s i.path i.deriver
  let s2 ← setReferences env s1 i.path i.references i.stateReferences i.revision
  checkRefsValid s2 newPaths i.path i.references
  if isStorePath_b then setDeriver env s2 i.path i.deriver
  else return s2

/-- The loop of `registerValidPaths`, with the batch's `newPaths` fixed. -/
def registerLoop (env : Env) (newPaths : List Path) :
    Store → List ValidPathInfo → Except Err Store
  | s, [] => .ok s
  | s, i :: rest => do
      let s' ← registerOne env newPaths s i
      registerLoop env newPaths s' rest

/-- `registerValidPaths` of local-store.cc: pre-compute the will-be-valid
set, then process each info (set valid, write references, check the
closure, set the deriver). -/
def registerValidPaths (env : Env) (s : Store) (infos : List ValidPathInfo) :
    Except Err Store :=
  registerLoop env (infos.map (fun i => i.path)) s infos

/-- `registerValidPath` wraps a single info. -/
def registerValidPath (env : Env) (s : Store) (path : Path) (hash : String)
    (references stateReferences : List Path) (deriver : Path)
    (revision : Nat) : Except Err Store :=
  registerValidPaths env s
    [{ path := path, hash := hash, references := references,
       stateReferences := stateReferences, revision := revision,
       deriver := deriver }]

/-! ## Invalidation and deletion -/

/-- `invalidatePath` of local-store.cc: clear references and the deriver row
only when no substitutes remain (the cleanup invariant), then drop the
validity row.  The source passes revision `-1` through an unsigned
parameter. -/
def invalidatePath (env : Env) (s : Store) (path : Path) : Except Err Store := do
  let subs ← querySubstitutes s path
  let s1 ← (if subs.length == 0 then do
      let sA ← setReferences env s path [] [] 4294967295
      pure { sA with derivers := delPair sA.derivers path }
    else pure s : Except Err Store)
  return { s1 with validPaths := delPair s1.validPaths path }

/-- The referrer loop of `deleteFromStore`: a valid referrer other than the
path itself makes the deletion fail. -/
def checkReferrersUnused (s : Store) (path : Path) :
    List Path → Except Err Unit
  | [] => .ok ()
  | i :: rest =>
      if i != path && isValidPathTxn s i then .error (.pathInUse path i)
      else checkReferrersUnused s path rest

/-- `deleteFromStore` of local-store.cc.  The callers of interest pass
canonical absolute paths, on which `canonPath` (util.cc, outside these
sources) is the identity. -/
def deleteFromStore (env : Env) (s : Store) (path : Path) : Except Err Store := do
  assertStorePath env path
  let s1 ← (if isValidPathTxn s path then do
      let referrers ← getReferrersTxn env s path 4294967295
      checkReferrersUnused s path referrers
      invalidatePath env s path
    else pure s : Except Err Store)
  return { s1 with fsC := delPair s1.fsC path }

/-! ## The verifier (spec §4.10) -/

/-- The messages `verifyStore` emits via `printMsg(lvlError, ...)`. -/
inductive Log where
  | pathDisappeared (p : Path)
  | pathNotInStore (p : Path)
  | hashMismatch (p : Path)
  | removingSubs (p : Path)
  | removingDeriverEntry (p : Path)
  | removingCorruptDeriver (d p : Path)
  | removingRefsEntry (p : Path)
  | incompleteClosure (p q : Path)
  deriving DecidableEq, Repr

/-- `verifyStore` of local-store.cc: existence check over valid paths,
realisability collection over substitutes, cleanup checks over the derivers
and component-component references tables. -/
def verifyStore (env : Env) (s : Store) (checkContents : Bool) :
    Except Err (Store × List Log) := do
  let paths := tkeys s.validPaths
  let step1 ← paths.foldlM (fun (acc : Store × List Path × List Log) p => do
      let st := acc.1
      let valids := acc.2.1
      let logs := acc.2.2
      if !(pathExists st p) then do
        let st2 ← invalidatePath env st p
        pure (st2, valids, logs ++ [.pathDisappeared p])
      else if !(isStorePath env p) then do
        let st2 ← invalidatePath env st p
        pure (st2, valids, logs ++ [.pathNotInStore p])
      else if checkContents then do
        let expected ← queryHash st p
        let current ← hashPath env st p
        if current != expected then
          pure (st, valids ++ [p], logs ++ [.hashMismatch p])
        else pure (st, valids ++ [p], logs)
      else pure (st, valids ++ [p], logs)) (s, ([], []))
  let s1 := step1.1
  let validPathList := step1.2.1
  let logs1 := step1.2.2
  let subKeys := tkeys s1.substitutes
  let step2 ← subKeys.foldlM (fun (acc : Store × List Path × List Log) i => do
      let st := acc.1
      let realisable := acc.2.1
      let logs := acc.2.2
      let subs ← readSubstitutes st i
      if !(isStorePath env i) then
        pure ({ st with substitutes := delPair st.substitutes i },
          realisable, logs ++ [.removingSubs i])
      else if subs.length == 0 then
        pure ({ st with substitutes := delPair st.substitutes i },
          realisable, logs)
      else pure (st, psInsert realisable i, logs)) (s1, (validPathList, logs1))
  let s2 := step2.1
  let realisablePaths := step2.2.1
  let logs2 := step2.2.2
  let deriversKeys := tkeys s2.derivers
  let step3 ← deriversKeys.foldlM (fun (acc : Store × List Log) i => do
      let st := acc.1
      let logs := acc.2
      if !(realisablePaths.contains i) then
        pure ({ st with derivers := delPair st.derivers i },
          logs ++ [.removingDeriverEntry i])
      else do
        let deriver ← queryDeriver env st i
        if !(isStorePath env deriver) then
          pure ({ st with derivers := delPair st.derivers i },
            logs ++ [.removingCorruptDeriver deriver i])
        else pure (st, logs)) (s2, logs2)
  let s3 := step3.1
  let logs3 := step3.2
  let referencesKeys := tkeys s3.refsCC
  let step4 ← referencesKeys.foldlM (fun (acc : Store × List Log) i => do
      let st := acc.1
      let logs := acc.2
      if !(realisablePaths.contains i) then do
        let st2 ← setReferences env st i [] [] 0
        pure (st2, logs ++ [.removingRefsEntry i])
      else do
        let isValid := validPathList.contains i
        let references ← queryXReferencesTxn env st i true 4294967295
        let logs2 := references.foldl (fun lacc j =>
            if isValid && !(validPathList.contains j) then
              lacc ++ [.incompleteClosure i j]
            else lacc) logs
        pure (st, logs2)) (s3, logs3)
  return step4

/-! ## Export and import (spec §4.9) -/

def EXPORT_MAGIC : Nat := 0x4558494e

/-- `LocalStore::exportPath`: archive dump, magic, path, component
references (at the current revision), deriver, and the signature flag with
an optional RSA signature over the hash of everything before the flag. -/
def exportPath (env : Env) (s : Store) (path : Path) (sign : Bool) :
    Except Err (List Tok) := do
  let _a ← assertStorePath env path
  if !(isValidPathTxn s path) then throw (.notValid path)
  else do
    let c ← (match tlookup s.fsC path with
      | none => throw (.contentsMissing path)
      | some c => pure c : Except Err String)
    let references ← queryXReferencesTxn env s path true 0
    let deriver ← queryDeriver env s path
    let base : List Tok := [.nar c, .num EXPORT_MAGIC, .str path,
      .strs references, .str deriver]
    if sign then
      return base ++ [.num 1, .str (env.rsaSign (env.hashSink base))]
    else
      return base ++ [.num 0]

/-- The assertion loop of `readStorePaths` (worker-protocol.cc, outside
these sources): every streamed reference must be store-shaped. -/
def assertAllStorePaths (env : Env) : List Path → Except Err Unit
  | [] => .ok ()
  | r :: rest => do
      let _ ← assertStorePath env r
      assertAllStorePaths env rest

/-- `LocalStore::importPath`: parse the envelope (the byte-level reads of
serialise.cc are token-level here; a stream that is not an export envelope
misparses), verify the signature when required, then materialise and
register.  State references are not carried by the format (`stateReferences`
stays empty), and a deriver that is not valid in the importing store is
dropped before registration. -/
def importPath (env : Env) (s : Store) (requireSignature : Bool)
    (source : List Tok) : Except Err (Path × Store) := do
  match source with
  | .nar c :: .num magic :: .str dstPath :: .strs references ::
      .str deriver0 :: .num signedFlag :: rest => do
    let _m ← (if magic != EXPORT_MAGIC then throw .wrongFormat
      else pure () : Except Err Unit)
    let _d ← assertStorePath env dstPath
    let _r ← assertAllStorePaths env references
    let stateReferences : List Path := []
    let _dv ← (if deriver0 != "" then assertStorePath env deriver0
      else pure () : Except Err Unit)
    let haveSignature := signedFlag == 1
    let _rq ← (if requireSignature && !haveSignature then throw .signatureMissing
      else pure () : Except Err Unit)
    let _sig ← (if haveSignature then
        match rest with
        | [.str signature] =>
            if requireSignature then
              let hash2 := env.rsaVerify signature
              if env.printHash (env.hashSink [Tok.nar c, .num magic, .str dstPath,
                  .strs references, .str deriver0]) != hash2 then
                throw .signatureMismatch
              else pure ()
            else pure ()
        | _ => throw .wrongFormat
      else pure () : Except Err Unit)
    if isValidPathTxn s dstPath then
      return (dstPath, s)
    else do
      let s1 := { s with fsC := tset (delPair s.fsC dstPath) dstPath c }
      let deriver := if !(isValidPathTxn s1 deriver0) then "" else deriver0
      let h ← hashPath env s1 dstPath
      let s2 ← registerValidPath env s1 dstPath h references stateReferences
          deriver 0
      return (dstPath, s2)
  | _ => throw .wrongFormat

/-! ## Association-table lemmas -/

theorem tlookup_delPair_self {K V : Type} [BEq K] [LawfulBEq K]
    (t : List (K × V)) (k : K) :
    tlookup (delPair t k) k = none := by
  induction t with
  | nil => rfl
  | cons e rest ih =>
      cases hc : e.1 == k
      · simpa [delPair, tlookup, hc] using ih
      · simpa [delPair, hc] using ih

theorem tlookup_delPair_ne {K V : Type} [BEq K] [LawfulBEq K]
    (t : List (K × V)) (k k' : K) (h : ¬ k' = k) :
    tlookup (delPair t k) k' = tlookup t k' := by
  induction t with
  | nil => rfl
  | cons e rest ih =>
      cases hc : e.1 == k
      · simp only [delPair, hc, Bool.false_eq_true, if_false, tlookup]
        rw [ih]
      · have hc2 : (e.1 == k') = false := by
          have he : e.1 = k := by simpa [beq_iff_eq] using hc
          exact beq_eq_false_iff_ne.mpr (fun hx => h (by rw [← hx, he]))
        simp only [delPair, hc, if_true, tlookup, hc2, Bool.false_eq_true, if_false]
        exact ih

theorem tlookup_tset_self {K V : Type} [BEq K] [LawfulBEq K]
    (t : List (K × V)) (k : K) (v : V) :
    tlookup (tset t k v) k = some v := by
  simp [tlookup, tset]

theorem tlookup_tset_ne {K V : Type} [BEq K] [LawfulBEq K]
    (t : List (K × V)) (k k' : K) (v : V) (h : ¬ k' = k) :
    tlookup (tset t k v) k' = tlookup t k' := by
  have hb : (k == k') = false := beq_eq_false_iff_ne.mpr (fun he => h he.symm)
  simp only [tset, tlookup, hb]
  simp [tlookup_delPair_ne t k k' h]

/-- Number of entries of a table carrying a given key. -/
def countKey {K V : Type} [BEq K] (t : List (K × V)) (k : K) : Nat :=
  (t.filter (fun e => e.1 == k)).length

theorem countKey_delPair_self {K V : Type} [BEq K] [LawfulBEq K]
    (t : List (K × V)) (k : K) : countKey (delPair t k) k = 0 := by
  induction t with
  | nil => rfl
  | cons e rest ih =>
      cases hc : e.1 == k
      · simpa [countKey, delPair, hc] using ih
      · simpa [delPair, hc] using ih

theorem countKey_delPair_ne {K V : Type} [BEq K] [LawfulBEq K]
    (t : List (K × V)) (k k' : K) (h : ¬ k' = k) :
    countKey (delPair t k) k' = countKey t k' := by
  induction t with
  | nil => rfl
  | cons e rest ih =>
      cases hc : e.1 == k
      · cases hc3 : e.1 == k'
        · simpa [delPair, countKey, hc, hc3] using ih
        · simpa [delPair, countKey, hc, hc3] using ih
      · have hc2 : (e.1 == k') = false := by
          have he : e.1 = k := by simpa [beq_iff_eq] using hc
          exact beq_eq_false_iff_ne.mpr (fun hx => h (by rw [← hx, he]))
        simpa [delPair, countKey, hc, hc2] using ih

/-! ## Concrete scenario material shared by witnesses and counterexamples -/

/-- A concrete environment: the hash oracle digests a string to `H` followed
by the string's length, compression and printing are identities, the user is
`alice`, and every path parses to the default (state-less) derivation. -/
def envW : Env := {
  nixStore := "/nix/store"
  nixStoreState := "/nix/state"
  hashString := fun s => "H" ++ toString s.length
  compressHash := fun h _ => h
  printHash := id
  printHash32 := id
  username := "alice"
  drvs := fun _ => default
  packStrings := fun l => String.intercalate "," l
  hashSink := fun _ => "sinkhash"
  rsaSign := id
  rsaVerify := id }

/-! ## Claim C1 -/

/-- Claim C1: `makeStorePath(type, h, name)` fails (with the InvalidName
errors of `checkStoreName`) exactly when the name starts with `.` or has a
character outside `[A-Za-z0-9+\-._?=]`, and for a valid name it returns
`<store-root>/<base32(trunc20(sha256(type ":sha256:" hex(h) ":" store-root
":" name)))>-<name>` without error. -/
theorem claim_C1_makeStorePath (env : Env) (type hash name : String) :
    ((∃ e, makeStorePath env type hash name = .error e) ↔
      (name.take 1 = "." ∨ ∃ c ∈ name.data, storeNameChar c = false))
    ∧ (validStoreName name →
      makeStorePath env type hash name =
        .ok (env.nixStore ++ "/"
          ++ env.printHash32 (env.compressHash
              (env.hashString (type ++ ":sha256:" ++ env.printHash hash ++ ":"
                ++ env.nixStore ++ ":" ++ name)) 20)
          ++ "-" ++ name)) := by
  constructor
  · constructor
    · intro he
      by_contra hno
      push_neg at hno
      have hv : validStoreName name := by
        refine ⟨hno.1, ?_⟩
        intro c hc
        cases hb : storeNameChar c
        · exact absurd hb (hno.2 c hc)
        · rfl
      have := (makeStorePath_ok_iff env type hash name).2 hv
      rcases this with ⟨p, hp⟩
      rcases he with ⟨e, hee⟩
      rw [hp] at hee
      cases hee
    · intro hbad
      rcases hmk : makeStorePath env type hash name with e | p
      · exact ⟨e, rfl⟩
      · exfalso
        have hv := (makeStorePath_ok_iff env type hash name).1 ⟨p, hmk⟩
        rcases hbad with hdot | ⟨c, hc, hcf⟩
        · exact hv.1 hdot
        · rw [hv.2 c hc] at hcf
          cases hcf
  · intro hv
    exact makeStorePath_ok_value env type hash name hv

/-- Claim C1 witness: at a concrete environment, invalid names are rejected
and the valid name `foo` produces the stated path. -/
theorem claim_C1_makeStorePath_witness :
    validStoreName "foo"
    ∧ makeStorePath envW "source" "abc" "foo" = .ok "/nix/store/H32-foo" := by
  refine ⟨by decide, ?_⟩
  have h := (claim_C1_makeStorePath envW "source" "abc" "foo").2 (by decide)
  simpa [envW] using h

/-! ## Claim C6 -/

/-- A derivation whose declared state path does not match the recomputation
from its own `(componentHash, name, stateIdentifier)` fields. -/
def spoofedDrv : Derivation := {
  outputsCount := 1
  stateOutput := some {
    statepath := "/nix/state/EVIL-foo-id"
    componentHash := "abc"
    stateIdentifier := "id"
    username := "alice" }
  envName := "foo" }

/-- Claim C6 (code bug): `checkStatePath` is supposed to raise
SpoofedStatePath when the declared state path differs from the recomputed
one, but the source constructs the `Error` without throwing it, so the call
returns normally even though the declared path `/nix/state/EVIL-foo-id`
differs from the recomputed `/nix/state/H35-foo-id`. -/
theorem claim_C6_checkStatePath_swallows_mismatch :
    checkStatePath envW spoofedDrv = .ok ()
    ∧ makeStatePath envW "abc" "foo" "id" = .ok "/nix/state/H35-foo-id"
    ∧ (stateOutputOf spoofedDrv).statepath ≠ "/nix/state/H35-foo-id" := by
  exact ⟨rfl, rfl, by decide⟩

/-! ## Claim C4 -/

def statePathP : Path := "/nix/state/p"

def statePathQ : Path := "/nix/state/q"

/-- A store where state path `p` has state-state reference rows at
timestamps 10 (containing `q`) and 5 (empty), and revision 1 of both paths
pins timestamp 5. -/
def dualityStore : Store := {
  validStatePaths := [(statePathP, "d"), (statePathQ, "d")]
  refsSS := [((statePathP, 10), [statePathQ]), ((statePathP, 5), [])]
  stateRevisions := [((statePathQ, 1), [(statePathQ, 5)]),
                     ((statePathP, 1), [(statePathP, 5)])] }

/-- Claim C4 (code bug): the state-referrer scan is claimed to select, per
candidate key, the largest timestamp not exceeding the bound derived from
the revision; in the source the bound guards two identical assignments (the
in-source comment flags that a revision is compared to a timestamp), so the
scan always reads the globally latest row.  At revision 1 (timestamp bound
5, whose row for `p` is empty) the code still reads `p`'s timestamp-10 row
and reports `p` as a referrer of `q`, while `q` is not among
`queryStateReferences(p, 1)` — the claimed duality fails. -/
theorem claim_C4_referrer_scan_ignores_revision_bound :
    queryStateReferrersTxn envW dualityStore statePathQ 1 = .ok [statePathP]
    ∧ queryXReferencesTxn envW dualityStore statePathP false 1 = .ok []
    ∧ revisionToTimeStamp dualityStore statePathQ 1 = some 5
    ∧ tlookup dualityStore.refsSS (statePathP, 5) = some []
    ∧ tlookup dualityStore.refsSS (statePathP, 10) = some [statePathQ] := by
  exact ⟨rfl, rfl, rfl, rfl, rfl⟩

/-! ## Claim C9 -/

def subPathP : Path := "/nix/store/abc-p"

def subFirst : Substitute := { deriver := "d1", program := "prog1", args := "A" }

def subSecond : Substitute := { deriver := "d2", program := "prog2", args := "B" }

/-- A substitute equal (under `Substitute::operator==`, which compares only
program and args) to the second entry of the stored row, but not to the
first. -/
def subNew : Substitute := { deriver := "dX", program := "prog2", args := "B" }

/-- A store whose substitutes row for `p` holds two version-2 records. -/
def subStore : Store := {
  substitutes := [(subPathP, [["2", "d1", "prog1", "A"], ["2", "d2", "prog2", "B"]])] }

/-- Claim C9 (code bug): `registerSubstitute` is claimed (and commented in
the source) to move an already-present substitute to the front; the source
instead returns early when the substitute is present, leaving the row
unchanged, so the front keeps holding the first entry, which differs from
the registered substitute. -/
theorem claim_C9_registerSubstitute_early_return :
    registerSubstitute envW subStore subPathP subNew = .ok subStore
    ∧ readSubstitutes subStore subPathP = .ok [subFirst, subSecond]
    ∧ subEq subNew subSecond = true
    ∧ subEq subNew subFirst = false
    ∧ subNew ≠ subFirst := by
  refine ⟨by decide, by decide, by decide, by decide, by decide⟩

/-! ## Claim C8 -/

def unrealPath : Path := "/nix/store/uuu-u"

/-- A store with a component-component references row for a key that is
neither valid nor substitutable. -/
def verifierStore : Store := {
  refsCC := [(unrealPath, ["/nix/store/xxx-x"])] }

/-- Claim C8 (code bug): the verifier is claimed to terminate normally and
clear the references of every unrealisable references key; it reaches
`setReferences` for such a key, whose branch chain throws "Path is not a
valid component or state path" for unrealisable paths — despite
`setReferences`' own leading comment that for unrealisable paths the
references can only be cleared — so `verifyStore(false)` aborts with an
error instead of clearing. -/
theorem claim_C8_verifyStore_throws_on_unrealisable_refs_key :
    verifyStore envW verifierStore false = .error (.notValidCompOrState unrealPath)
    ∧ tlookup verifierStore.refsCC unrealPath = some ["/nix/store/xxx-x"]
    ∧ isValidPathTxn verifierStore unrealPath = false
    ∧ tlookup verifierStore.substitutes unrealPath = none := by
  exact ⟨rfl, rfl, rfl, rfl⟩

/-! ## Claim C7 -/

theorem checkReferrersUnused_ok (s : Store) (path : Path) (l : List Path)
    (h : ∀ i ∈ l, i = path ∨ isValidPathTxn s i = false) :
    checkReferrersUnused s path l = .ok () := by
  induction l with
  | nil => rfl
  | cons i rest ih =>
      have hi := h i (List.mem_cons_self i rest)
      have hrest : ∀ j ∈ rest, j = path ∨ isValidPathTxn s j = false :=
        fun j hj => h j (List.mem_cons_of_mem i hj)
      rcases hi with hp | hv
      · subst hp
        simp [checkReferrersUnused, ih hrest]
      · simp [checkReferrersUnused, hv, ih hrest]

/-- Claim C7 (amended): deleting a valid path with no valid referrer other
than itself and a non-empty substitutes row removes the validity row and
leaves the substitutes row unchanged, but — contrary to the original claim —
also leaves the reference rows untouched: `invalidatePath` clears references
and derivers only when no substitutes remain, which is the cleanup
invariant I3 (references may exist for realisable keys, and the path stays
realisable through its substitutes). -/
theorem claim_C7_delete_keeps_references_when_substituted
    (env : Env) (s : Store) (path : Path) (referrers : List Path)
    (subsRow : List Substitute)
    (hshape : isStorePath env path = true)
    (hvalid : isValidPathTxn s path = true)
    (hscan : getReferrersTxn env s path 4294967295 = .ok referrers)
    (hrefzero : ∀ i ∈ referrers, i = path ∨ isValidPathTxn s i = false)
    (hsubs : readSubstitutes s path = .ok subsRow)
    (hnonempty : subsRow ≠ []) :
    ∃ s', deleteFromStore env s path = .ok s'
      ∧ tlookup s'.validPaths path = none
      ∧ s'.refsCC = s.refsCC
      ∧ s'.refsCS = s.refsCS
      ∧ s'.derivers = s.derivers
      ∧ s'.substitutes = s.substitutes := by
  have hlen : (subsRow.length == 0) = false := by
    cases subsRow with
    | nil => exact absurd rfl hnonempty
    | cons a l => rfl
  refine ⟨{ s with validPaths := delPair s.validPaths path, fsC := delPair s.fsC path }, ?_, ?_, rfl, rfl, rfl, rfl⟩
  · simp only [deleteFromStore, assertStorePath, hshape, if_true, except_bind_ok,
      hvalid, hscan, invalidatePath, querySubstitutes, hsubs, hlen,
      Bool.false_eq_true, if_false, except_pure_eq,
      checkReferrersUnused_ok s path referrers hrefzero]
  · exact tlookup_delPair_self s.validPaths path

def delRefQ : Path := "/nix/store/def-q"

/-- A store where `p` is valid, references `q`, has a version-2 substitute
row, and has no referrer at all. -/
def delStore : Store := {
  validPaths := [(subPathP, "sha256:h")]
  refsCC := [(subPathP, [delRefQ])]
  substitutes := [(subPathP, [["2", "d", "prog", "args"]])]
  fsC := [(subPathP, "narP")] }

/-- Claim C7 counterexample: for the valid path `p` with zero valid
referrers and a non-empty substitutes row, `deleteFromStore` removes the
validity row and keeps the substitute row, but does NOT clear the reference
row — it still holds `[q]` afterwards, contradicting the claim's "clears
P's reference rows". -/
theorem claim_C7_counterexample_references_not_cleared :
    (deleteFromStore envW delStore subPathP).map
        (fun s => (tlookup s.validPaths subPathP, tlookup s.refsCC subPathP,
                   tlookup s.substitutes subPathP))
      = .ok (none, some [delRefQ], some [["2", "d", "prog", "args"]])
    ∧ isValidPathTxn delStore subPathP = true
    ∧ getReferrersTxn envW delStore subPathP 4294967295 = .ok [] := by
  refine ⟨by decide, by decide, by decide⟩

/-- Claim C7 witness: the amended theorem applied to the concrete store. -/
theorem claim_C7_delete_keeps_references_witness :
    ∃ s', deleteFromStore envW delStore subPathP = .ok s'
      ∧ tlookup s'.validPaths subPathP = none
      ∧ s'.refsCC = delStore.refsCC
      ∧ s'.refsCS = delStore.refsCS
      ∧ s'.derivers = delStore.derivers
      ∧ s'.substitutes = delStore.substitutes :=
  claim_C7_delete_keeps_references_when_substituted envW delStore subPathP []
    [{ deriver := "d", program := "prog", args := "args" }]
    (by decide) (by decide) (by decide)
    (by intro i hi; cases hi) (by decide) (by decide)

/-! ## Claim C10 -/

theorem countKey_cons_self {K V : Type} [BEq K] [LawfulBEq K]
    (k : K) (v : V) (l : List (K × V)) :
    countKey ((k, v) :: l) k = countKey l k + 1 := by
  simp [countKey, List.filter_cons]

theorem countKey_cons_ne {K V : Type} [BEq K] [LawfulBEq K]
    (k0 k : K) (v : V) (l : List (K × V)) (h : ¬ k0 = k) :
    countKey ((k0, v) :: l) k = countKey l k := by
  have hb : (k0 == k) = false := beq_eq_false_iff_ne.mpr h
  simp [countKey, List.filter_cons, hb]

theorem countKey_setShared_le (s : Store) (fromExisting toNew : Path)
    (h : ∀ k, countKey s.sharedState k ≤ 1) :
    ∀ k, countKey (setSharedStateTxn s fromExisting toNew).sharedState k ≤ 1 := by
  intro k
  by_cases hk : k = toNew
  · subst hk
    show countKey (tset (delPair s.sharedState k) k fromExisting) k ≤ 1
    rw [tset, countKey_cons_self, countKey_delPair_self]
  · show countKey (tset (delPair s.sharedState toNew) toNew fromExisting) k ≤ 1
    rw [tset, countKey_cons_ne _ _ _ _ (fun he => hk he.symm),
      countKey_delPair_ne _ _ _ hk, countKey_delPair_ne _ _ _ hk]
    exact h k

/-- Claim C10: `setSharedState(fromExisting, toNew)` first deletes any
SharedState entry keyed by `toNew` and then records `toNew → fromExisting`:
afterwards `toNew` maps to `fromExisting` and carries exactly one row, other
keys are untouched, the at-most-one-outgoing-alias invariant is preserved
across any sequence of calls, and the dereference walk from `toNew`
continues from the newly written target. -/
theorem claim_C10_setSharedState (s : Store) (fromExisting toNew : Path) :
    querySharedStateTxn (setSharedStateTxn s fromExisting toNew) toNew
        = some fromExisting
    ∧ (∀ p, ¬ p = toNew →
        querySharedStateTxn (setSharedStateTxn s fromExisting toNew) p
          = querySharedStateTxn s p)
    ∧ countKey (setSharedStateTxn s fromExisting toNew).sharedState toNew = 1
    ∧ ((∀ k, countKey s.sharedState k ≤ 1) →
        ∀ (calls : List (Path × Path)) (k : Path),
          countKey ((calls.foldl (fun st c => setSharedStateTxn st c.1 c.2)
            s).sharedState) k ≤ 1)
    ∧ (∀ fuel, toNonSharedPathAux (setSharedStateTxn s fromExisting toNew)
        (fuel + 1) toNew
        = toNonSharedPathAux (setSharedStateTxn s fromExisting toNew)
            fuel fromExisting) := by
  refine ⟨?_, ?_, ?_, ?_, ?_⟩
  · simp [querySharedStateTxn, setSharedStateTxn, tset, tlookup]
  · intro p hp
    simp only [querySharedStateTxn, setSharedStateTxn]
    rw [tlookup_tset_ne _ _ _ _ hp, tlookup_delPair_ne _ _ _ hp]
  · show countKey (tset (delPair s.sharedState toNew) toNew fromExisting) toNew = 1
    rw [tset, countKey_cons_self, countKey_delPair_self]
  · intro h calls
    induction calls generalizing s with
    | nil => exact h
    | cons c rest ih => exact ih _ (countKey_setShared_le s c.1 c.2 h)
  · intro fuel
    have hq : querySharedStateTxn (setSharedStateTxn s fromExisting toNew) toNew
        = some fromExisting := by
      simp [querySharedStateTxn, setSharedStateTxn, tset, tlookup]
    simp [toNonSharedPathAux, hq]

/-- Claim C10 witness: at a concrete store holding an old alias for `a`,
rebinding `a` to `c` yields exactly one row for `a`, pointing at `c`, and
the walk from `a` reaches `c`. -/
theorem claim_C10_setSharedState_witness :
    querySharedStateTxn (setSharedStateTxn
        { sharedState := [("/nix/state/a", "/nix/state/b")] }
        "/nix/state/c" "/nix/state/a") "/nix/state/a" = some "/nix/state/c"
    ∧ countKey (setSharedStateTxn
        { sharedState := [("/nix/state/a", "/nix/state/b")] }
        "/nix/state/c" "/nix/state/a").sharedState "/nix/state/a" = 1 := by
  have h := claim_C10_setSharedState
      { sharedState := [("/nix/state/a", "/nix/state/b")] }
      "/nix/state/c" "/nix/state/a"
  exact ⟨h.1, h.2.2.1⟩

/-! ## Claim C5 -/

/-- Claim C5: for a realisable component path `P` and two distinct
state-bearing derivations `D`, `D'` declaring the same
`(stateIdentifier, username)` pair, `addStateDeriver(P, D)` followed by
`addStateDeriver(P, D')` leaves `queryDerivers(P, ident, user)` returning
exactly `{D'}`, and `D`'s on-disk derivation file has been deleted. -/
theorem claim_C5_deriver_merge (env : Env) (s : Store) (P D D' : Path)
    (soD soD' : StateOutput) (nD nD' : String)
    (hD : env.drvs D = { outputsCount := 1, stateOutput := some soD, envName := nD })
    (hD' : env.drvs D' = { outputsCount := 1, stateOutput := some soD', envName := nD' })
    (hid : soD.stateIdentifier = soD'.stateIdentifier)
    (huser : soD.username = soD'.username)
    (hP : isStorePath env P = true)
    (hDs : isStorePath env D = true)
    (hD's : isStorePath env D' = true)
    (hDne : ¬ D = "")
    (hD'ne : ¬ D' = "")
    (hDD' : ¬ D = D')
    (hvalid : isValidPathTxn s P = true)
    (hrow : tlookup s.derivers P = none)
    (huser0 : ¬ soD'.username = "") :
    ∃ s1 s2, addStateDeriver env s P D = .ok s1
      ∧ addStateDeriver env s1 P D' = .ok s2
      ∧ queryDerivers env s2 P soD'.stateIdentifier soD'.username = .ok [D']
      ∧ tlookup s2.fsC D = none := by
  have hDb : (D == "") = false := beq_eq_false_iff_ne.mpr hDne
  have hD'b : (D' == "") = false := beq_eq_false_iff_ne.mpr hD'ne
  have hDD : (D != D') = true := by
    simp [bne, beq_eq_false_iff_ne.mpr hDD']
  have huser1 : ¬ soD.username = "" := by rw [huser]; exact huser0
  have huDb : (soD.username == "") = false := beq_eq_false_iff_ne.mpr huser1
  have huD'b : (soD'.username == "") = false := beq_eq_false_iff_ne.mpr huser0
  have hidb : (soD.stateIdentifier == soD'.stateIdentifier) = true := by
    simp [hid]
  have husb : (soD.username == soD'.username) = true := by simp [huser]
  have h1 : addStateDeriver env s P D = .ok ({ s with derivers := tset s.derivers P [D], stateInfo := tset s.stateInfo P "" }) := by
    simp [addStateDeriver, assertStorePath, hP, hDs, hDb, isRealisablePath,
      hvalid, queryDerivers, queryDeriversLoop, huDb, hrow, hD, stateOutputOf,
      mergeNewDerivationIntoListTxn, psInsert]
  have hvalid' : (tlookup s.validPaths P).isSome = true := by
    simpa [isValidPathTxn] using hvalid
  have h2 : addStateDeriver env ({ s with derivers := tset s.derivers P [D], stateInfo := tset s.stateInfo P "" }) P D' = .ok ({ s with derivers := tset (tset s.derivers P [D]) P [D'], stateInfo := tset (tset s.stateInfo P "") P "", fsC := delPair s.fsC D }) := by
    simp [addStateDeriver, assertStorePath, hP, hD's, hD'b, isRealisablePath,
      isValidPathTxn, hvalid', queryDerivers, queryDeriversLoop, huD'b,
      tlookup_tset_self, hD, hD', stateOutputOf, hid, huser, hDD',
      mergeNewDerivationIntoListTxn, psInsert, hDD]
  have h3 : queryDerivers env ({ s with derivers := tset (tset s.derivers P [D]) P [D'], stateInfo := tset (tset s.stateInfo P "") P "", fsC := delPair s.fsC D }) P soD'.stateIdentifier soD'.username = .ok [D'] := by
    simp [queryDerivers, queryDeriversLoop, isRealisablePath, isValidPathTxn,
      hvalid', huD'b, tlookup_tset_self, hD', stateOutputOf, psInsert]
  have h4 : tlookup (({ s with derivers := tset (tset s.derivers P [D]) P [D'], stateInfo := tset (tset s.stateInfo P "") P "", fsC := delPair s.fsC D }) : Store).fsC D = none := by
    simpa using tlookup_delPair_self s.fsC D
  exact ⟨_, _, h1, h2, h3, h4⟩

/-- A concrete environment for the deriver-merge witness: two derivation
files parse to single-output state derivations sharing `(id, u)`. -/
def envMerge : Env := { envW with drvs := fun p =>
  if p == "/nix/store/ddd-d.drv" then { outputsCount := 1, stateOutput := some { statepath := "/nix/state/sA", componentHash := "c", stateIdentifier := "id", username := "u" }, envName := "n" }
  else if p == "/nix/store/eee-e.drv" then { outputsCount := 1, stateOutput := some { statepath := "/nix/state/sB", componentHash := "c", stateIdentifier := "id", username := "u" }, envName := "n" }
  else default }

/-- Claim C5 witness: the merge law at a concrete store holding both
derivation files on disk. -/
theorem claim_C5_deriver_merge_witness :
    ∃ s1 s2, addStateDeriver envMerge { validPaths := [("/nix/store/abc-p", "sha256:h")], fsC := [("/nix/store/ddd-d.drv", "narA"), ("/nix/store/eee-e.drv", "narB")] } "/nix/store/abc-p" "/nix/store/ddd-d.drv" = .ok s1
      ∧ addStateDeriver envMerge s1 "/nix/store/abc-p" "/nix/store/eee-e.drv" = .ok s2
      ∧ queryDerivers envMerge s2 "/nix/store/abc-p" "id" "u" = .ok ["/nix/store/eee-e.drv"]
      ∧ tlookup s2.fsC "/nix/store/ddd-d.drv" = none :=
  claim_C5_deriver_merge envMerge
    { validPaths := [("/nix/store/abc-p", "sha256:h")], fsC := [("/nix/store/ddd-d.drv", "narA"), ("/nix/store/eee-e.drv", "narB")] }
    "/nix/store/abc-p" "/nix/store/ddd-d.drv" "/nix/store/eee-e.drv"
    { statepath := "/nix/state/sA", componentHash := "c", stateIdentifier := "id", username := "u" }
    { statepath := "/nix/state/sB", componentHash := "c", stateIdentifier := "id", username := "u" }
    "n" "n" (by decide) (by decide) (by decide) (by decide) (by decide)
    (by decide) (by decide) (by decide) (by decide) (by decide) (by decide)
    (by decide) (by decide)

/-! ## Claim C3 -/

theorem assertAllStorePaths_ok (env : Env) (l : List Path)
    (h : ∀ r ∈ l, isStorePath env r = true) :
    assertAllStorePaths env l = .ok () := by
  induction l with
  | nil => rfl
  | cons r rest ih =>
      have hr := h r (List.mem_cons_self r rest)
      have hrest : ∀ q ∈ rest, isStorePath env q = true :=
        fun q hq => h q (List.mem_cons_of_mem r hq)
      simp only [assertAllStorePaths, assertStorePath, hr, if_true,
        except_bind_ok]
      exact ih hrest

theorem checkRefsValid_ok_of (s : Store) (nps : List Path) (ipath : Path)
    (l : List Path)
    (h : ∀ j ∈ l, isValidPathTxn s j = true ∨ j ∈ nps) :
    checkRefsValid s nps ipath l = .ok () := by
  induction l with
  | nil => rfl
  | cons j rest ih =>
      have hj := h j (List.mem_cons_self j rest)
      have hrest : ∀ q ∈ rest, isValidPathTxn s q = true ∨ q ∈ nps :=
        fun q hq => h q (List.mem_cons_of_mem j hq)
      rcases hj with hv | hm
      · simp [checkRefsValid, hv, ih hrest]
      · simp [checkRefsValid, ih hrest]
        intro _
        exact hm

def c3StoreWithRef : Store := {
  validPaths := [(subPathP, "sha256:h1"), (delRefQ, "sha256:h2")]
  refsCC := [(subPathP, [delRefQ]), (delRefQ, [])]
  fsC := [(subPathP, "narP"), (delRefQ, "narQ")] }

def c3DrvD : Path := "/nix/store/ddd-d.drv"

def c3StoreWithDeriver : Store := {
  validPaths := [(subPathP, "sha256:H4"), (c3DrvD, "sha256:x")]
  refsCC := [(subPathP, [])]
  derivers := [(subPathP, [c3DrvD])]
  fsC := [(subPathP, "narP")] }

/-- Claim C3 counterexample: (a) for the valid path `p` referencing the
valid path `q`, importing `p`'s export stream into an empty store throws
the closure-check error (the reference is neither valid nor in the batch of
the empty target), so no store with `p` valid results; (b) for the valid
path `p` with deriver `d`, the roundtrip succeeds but `queryDeriver` in the
target returns `""` instead of `d` — the import drops a deriver that is not
valid in the importing store. -/
theorem claim_C3_counterexample_roundtrip_fails :
    (exportPath envW c3StoreWithRef subPathP false).bind
        (fun toks => importPath envW ({} : Store) false toks)
      = .error (.invalidReference subPathP delRefQ)
    ∧ ((exportPath envW c3StoreWithDeriver subPathP false).bind
        (fun toks => importPath envW ({} : Store) false toks)).bind
          (fun pr => queryDeriver envW pr.2 pr.1) = .ok ""
    ∧ queryDeriver envW c3StoreWithDeriver subPathP = .ok c3DrvD
    ∧ isValidPathTxn c3StoreWithRef subPathP = true
    ∧ isValidPathTxn c3StoreWithDeriver subPathP = true
    ∧ ¬ c3DrvD = "" := by
  refine ⟨by decide, by decide, by decide, by decide, by decide, by decide⟩

/-- Claim C3 (amended): for a valid component path `P` whose component
reference row contains no path other than `P` itself and whose deriver row
is absent, `exportPath(P)` followed by `importPath` into an empty store
yields a store in which `P` is valid with the same recorded hash (the
recorded hash being the hash of `P`'s contents, invariant I1), and
`queryReferences(P)` equals the original references; `queryDeriver(P)`
returns `""`, which equals the original deriver only because both are
empty — in general the import refuses any non-self reference of `P`
(closure check against the empty target) and resets a deriver that is not
valid in the importing store to `""`. -/
theorem claim_C3_export_import_roundtrip (env : Env) (s : Store) (P : Path)
    (c : String) (rs : List Path)
    (hP : isStorePath env P = true)
    (hv : tlookup s.validPaths P = some ("sha256:" ++ env.printHash (env.hashString c)))
    (hfs : tlookup s.fsC P = some c)
    (hrefs : (tlookup s.refsCC P).getD [] = rs)
    (hself : ∀ q ∈ rs, q = P)
    (hderiv : tlookup s.derivers P = none)
    (hdrv0 : isStateDrv (env.drvs "") = false) :
    ∃ toks s', exportPath env s P false = .ok toks
      ∧ importPath env ({} : Store) false toks = .ok (P, s')
      ∧ isValidPathTxn s' P = true
      ∧ tlookup s'.validPaths P = tlookup s.validPaths P
      ∧ queryXReferencesTxn env s' P true 0 = .ok rs
      ∧ queryDeriver env s' P = .ok "" := by
  have hvalid : isValidPathTxn s P = true := by simp [isValidPathTxn, hv]
  have h_exp : exportPath env s P false =
      .ok [.nar c, .num EXPORT_MAGIC, .str P, .strs rs, .str "", .num 0] := by
    simp [exportPath, assertStorePath, hP, hvalid, hfs, queryXReferencesTxn,
      isRealisablePath, hrefs, queryDeriver, queryStringMulti, hderiv, hdrv0]
  have hshape : ∀ r ∈ rs, isStorePath env r = true := by
    intro r hr; rw [hself r hr]; exact hP
  have hAll : assertAllStorePaths env rs = .ok () :=
    assertAllStorePaths_ok env rs hshape
  cases rs with
  | nil =>
      have h_imp : importPath env ({} : Store) false [.nar c, .num EXPORT_MAGIC, .str P, .strs [], .str "", .num 0] = .ok (P, ({ validPaths := [(P, "sha256:" ++ env.printHash (env.hashString c))], fsC := [(P, c)] } : Store)) := by
        simp [importPath, assertStorePath, assertAllStorePaths, hP,
          registerValidPath, registerValidPaths, registerLoop, registerOne,
          setHash, setReferences, isRealisablePath,
          setReferencesPre, isRealisableComponentOrStatePath,
          isValidComponentOrStatePathTxn, isValidPathTxn, tlookup, tset, delPair,
          pathSetEq, checkRefsValid, setDeriver, hashPath]
      refine ⟨_, _, h_exp, h_imp, ?_, ?_, ?_, ?_⟩
      · simp [isValidPathTxn, tlookup]
      · simp [tlookup, hv]
      · simp [queryXReferencesTxn, isRealisablePath, isValidPathTxn, tlookup]
      · simp [queryDeriver, isRealisablePath, isValidPathTxn, tlookup,
          queryStringMulti, hdrv0]
  | cons r0 rtl =>
      have hr0 : r0 = P := hself r0 (List.mem_cons_self r0 rtl)
      subst hr0
      have hchk : ∀ j ∈ r0 :: rtl,
          isValidPathTxn ({ validPaths := [(r0, "sha256:" ++ env.printHash (env.hashString c))], refsCC := [(r0, r0 :: rtl)], refsCS := [(r0, [])], fsC := [(r0, c)] } : Store) j = true
            ∨ j ∈ ([r0] : List Path) := by
        intro j hj
        rw [hself j hj]
        left
        simp [isValidPathTxn, tlookup]
      have h_imp : importPath env ({} : Store) false [.nar c, .num EXPORT_MAGIC, .str r0, .strs (r0 :: rtl), .str "", .num 0] = .ok (r0, ({ validPaths := [(r0, "sha256:" ++ env.printHash (env.hashString c))], refsCC := [(r0, r0 :: rtl)], refsCS := [(r0, [])], fsC := [(r0, c)] } : Store)) := by
        simp [importPath, assertStorePath, hP, hAll, registerValidPath,
          registerValidPaths, registerLoop, registerOne, setHash, setReferences,
          isRealisablePath, setReferencesPre, isRealisableComponentOrStatePath,
          isValidComponentOrStatePathTxn, isValidPathTxn, tlookup, tset, delPair,
          pathSetEq, checkRefsValid_ok_of _ _ _ _ hchk, setDeriver, hashPath]
      refine ⟨_, _, h_exp, h_imp, ?_, ?_, ?_, ?_⟩
      · simp [isValidPathTxn, tlookup]
      · simp [tlookup, hv]
      · simp [queryXReferencesTxn, isRealisablePath, isValidPathTxn, tlookup]
      · simp [queryDeriver, isRealisablePath, isValidPathTxn, tlookup,
          queryStringMulti, hdrv0]

/-- A self-contained valid path for the roundtrip witness: `p` references
only itself, has no deriver, and its recorded hash is the hash of its
contents. -/
def c3RoundStore : Store := {
  validPaths := [(subPathP, "sha256:H4")]
  refsCC := [(subPathP, [subPathP])]
  fsC := [(subPathP, "narP")] }

/-- Claim C3 witness: the amended roundtrip at the concrete self-contained
store. -/
theorem claim_C3_export_import_roundtrip_witness :
    ∃ toks s', exportPath envW c3RoundStore subPathP false = .ok toks
      ∧ importPath envW ({} : Store) false toks = .ok (subPathP, s')
      ∧ isValidPathTxn s' subPathP = true
      ∧ tlookup s'.validPaths subPathP = tlookup c3RoundStore.validPaths subPathP
      ∧ queryXReferencesTxn envW s' subPathP true 0 = .ok [subPathP]
      ∧ queryDeriver envW s' subPathP = .ok "" :=
  claim_C3_export_import_roundtrip envW c3RoundStore subPathP "narP" [subPathP]
    (by decide) (by decide) (by decide) (by decide) (by decide) (by decide)
    (by decide)

/-! ## Claim C2: error-shape and frame lemmas -/

/-- The closure-check error shape. -/
def errIsInvalidRef : Err → Bool
  | .invalidReference _ _ => true
  | _ => false

theorem readSubstitutesRow_error (l : List (List String)) (e : Err)
    (h : readSubstitutesRow l = .error e) : e = .malformedSubstitute := by
  induction l with
  | nil => simp [readSubstitutesRow] at h
  | cons ss2 rest ih =>
      unfold readSubstitutesRow at h
      split at h
      · exact ih h
      · split at h
        · exact ih h
        · split at h
          · exact ih h
          · split at h
            · cases h
              rfl
            · rcases hrest : readSubstitutesRow rest with e' | subs
              · rw [hrest] at h
                simp only [except_bind_error, Except.error.injEq] at h
                subst h
                exact ih hrest
              · rw [hrest] at h
                simp at h

theorem readSubstitutes_error (s : Store) (p : Path) (e : Err)
    (h : readSubstitutes s p = .error e) : e = .malformedSubstitute :=
  readSubstitutesRow_error _ e h

theorem isRealisablePath_error (s : Store) (p : Path) (e : Err)
    (h : isRealisablePath s p = .error e) : e = .malformedSubstitute := by
  unfold isRealisablePath at h
  split at h
  · simp at h
  · rcases hr : readSubstitutes s p with e' | subs
    · rw [hr] at h
      simp at h
      exact h ▸ readSubstitutes_error s p e' hr
    · rw [hr] at h
      simp at h

theorem isRealisableStatePath_error (s : Store) (p : Path) (e : Err)
    (h : isRealisableStatePath s p = .error e) : e = .malformedSubstitute := by
  unfold isRealisableStatePath at h
  split at h
  · simp at h
  · rcases hr : readSubstitutes s p with e' | subs
    · rw [hr] at h
      simp at h
      exact h ▸ readSubstitutes_error s p e' hr
    · rw [hr] at h
      simp at h

theorem isRealisableComponentOrStatePath_error (s : Store) (p : Path) (e : Err)
    (h : isRealisableComponentOrStatePath s p = .error e) :
    e = .malformedSubstitute := by
  unfold isRealisableComponentOrStatePath at h
  split at h
  · simp at h
  · rcases hr : readSubstitutes s p with e' | subs
    · rw [hr] at h
      simp at h
      exact h ▸ readSubstitutes_error s p e' hr
    · rw [hr] at h
      simp at h

theorem queryStateReferencesDB_error (s : Store)
    (tbl : List ((Path × Nat) × List Path)) (p : Path) (revision timestamp : Nat)
    (e : Err) (h : queryStateReferencesDB s tbl p revision timestamp = .error e) :
    errIsInvalidRef e = false := by
  unfold queryStateReferencesDB at h
  split at h
  · simp at h
  · split at h
    · split at h
      · cases h
        rfl
      · simp at h
    · split at h
      · simp at h
      · simp at h

theorem setStateReferencesT_error (s : Store)
    (tbl : List ((Path × Nat) × List Path)) (p : Path) (refs : List Path)
    (revision : Nat) (e : Err)
    (h : setStateReferencesT s tbl p refs revision = .error e) :
    errIsInvalidRef e = false := by
  unfold setStateReferencesT at h
  split at h
  · simp at h
  · split at h
    · cases h
      rfl
    · simp at h

theorem foldl_fst_validPaths (f : (Store × List Path) → Path → (Store × List Path))
    (hf : ∀ b a, ((f b a).1).validPaths = b.1.validPaths) :
    ∀ (l : List Path) (b : Store × List Path),
      (((l.foldl f b).1)).validPaths = b.1.validPaths := by
  intro l
  induction l with
  | nil => intro b; rfl
  | cons a rest ih =>
      intro b
      rw [List.foldl_cons, ih (f b a), hf b a]

theorem merge_fst_validPaths (env : Env) (s : Store) (sp nd : Path)
    (drvs0 : List Path) (del : Bool) :
    (mergeNewDerivationIntoListTxn env s sp nd drvs0 del).1.validPaths
      = s.validPaths := by
  unfold mergeNewDerivationIntoListTxn
  dsimp only
  refine foldl_fst_validPaths _ ?_ drvs0 (s, [])
  intro b a
  dsimp only
  split
  · split
    · rfl
    · rfl
  · rfl

theorem setReferencesPre_error (s : Store) (p : Path) (refs : List Path)
    (e : Err) (h : setReferencesPre s p refs = .error e) :
    errIsInvalidRef e = false := by
  unfold setReferencesPre at h
  split at h
  · rcases hr : isRealisableComponentOrStatePath s p with e1 | b
    · rw [hr] at h
      simp only [except_bind_error, Except.error.injEq] at h
      subst h
      rw [isRealisableComponentOrStatePath_error s p _ hr]
      rfl
    · rw [hr] at h
      simp only [except_bind_ok] at h
      split at h
      · cases h
        rfl
      · simp at h
  · simp at h

theorem setReferences_error (env : Env) (s : Store) (p : Path)
    (refs srefs : List Path) (revision : Nat) (e : Err)
    (h : setReferences env s p refs srefs revision = .error e) :
    errIsInvalidRef e = false := by
  unfold setReferences at h
  rcases hp : setReferencesPre s p refs with e1 | u1
  · rw [hp] at h
    simp only [except_bind_error, Except.error.injEq] at h
    subst h
    exact setReferencesPre_error s p refs _ hp
  · rw [hp] at h
    simp only [except_bind_ok] at h
    rcases hrp : isRealisablePath s p with e2 | b
    · rw [hrp] at h
      simp only [except_bind_error, Except.error.injEq] at h
      subst h
      rw [isRealisablePath_error s p _ hrp]
      rfl
    · rw [hrp] at h
      simp only [except_bind_ok] at h
      cases b
      · simp only [Bool.false_eq_true, if_false] at h
        rcases hrsp : isRealisableStatePath s p with e3 | b2
        · rw [hrsp] at h
          simp only [except_bind_error, Except.error.injEq] at h
          subst h
          rw [isRealisableStatePath_error s p _ hrsp]
          rfl
        · rw [hrsp] at h
          simp only [except_bind_ok] at h
          cases b2
          · simp only [Bool.false_eq_true, if_false] at h
            cases h
            rfl
          · simp only [if_true] at h
            rcases hq1 : queryStateReferencesDB s s.refsSC p revision 0 with e4 | o1
            · rw [hq1] at h
              simp only [except_bind_error, Except.error.injEq] at h
              subst h
              exact queryStateReferencesDB_error s _ p revision 0 _ hq1
            · rw [hq1] at h
              simp only [except_bind_ok] at h
              rcases hq2 : queryStateReferencesDB s s.refsSS p revision 0 with e5 | o2
              · rw [hq2] at h
                simp only [except_bind_error, Except.error.injEq] at h
                subst h
                exact queryStateReferencesDB_error s _ p revision 0 _ hq2
              · rw [hq2] at h
                simp only [except_bind_ok] at h
                rcases hw1 : setStateReferencesT s s.refsSC p refs revision with e6 | t1
                · rw [hw1] at h
                  simp only [except_bind_error, Except.error.injEq] at h
                  subst h
                  exact setStateReferencesT_error s _ p refs revision _ hw1
                · rw [hw1] at h
                  simp only [except_bind_ok] at h
                  rcases hw2 : setStateReferencesT s s.refsSS p srefs revision with e7 | t2
                  · rw [hw2] at h
                    simp only [except_bind_error, Except.error.injEq] at h
                    subst h
                    exact setStateReferencesT_error s _ p srefs revision _ hw2
                  · rw [hw2] at h
                    simp at h
      · simp only [if_true] at h
        split at h
        · simp at h
        · simp at h

theorem setReferences_ok_validPaths (env : Env) (s : Store) (p : Path)
    (refs srefs : List Path) (revision : Nat) (s' : Store)
    (h : setReferences env s p refs srefs revision = .ok s') :
    s'.validPaths = s.validPaths := by
  unfold setReferences at h
  rcases hp : setReferencesPre s p refs with e1 | u1
  · rw [hp] at h
    simp at h
  · rw [hp] at h
    simp only [except_bind_ok] at h
    rcases hrp : isRealisablePath s p with e2 | b
    · rw [hrp] at h
      simp at h
    · rw [hrp] at h
      simp only [except_bind_ok] at h
      cases b
      · simp only [Bool.false_eq_true, if_false] at h
        rcases hrsp : isRealisableStatePath s p with e3 | b2
        · rw [hrsp] at h
          simp at h
        · rw [hrsp] at h
          simp only [except_bind_ok] at h
          cases b2
          · simp at h
          · simp only [if_true] at h
            rcases hq1 : queryStateReferencesDB s s.refsSC p revision 0 with e4 | o1
            · rw [hq1] at h
              simp at h
            · rw [hq1] at h
              simp only [except_bind_ok] at h
              rcases hq2 : queryStateReferencesDB s s.refsSS p revision 0 with e5 | o2
              · rw [hq2] at h
                simp at h
              · rw [hq2] at h
                simp only [except_bind_ok] at h
                rcases hw1 : setStateReferencesT s s.refsSC p refs revision with e6 | t1
                · rw [hw1] at h
                  simp at h
                · rw [hw1] at h
                  simp only [except_bind_ok] at h
                  rcases hw2 : setStateReferencesT s s.refsSS p srefs revision with e7 | t2
                  · rw [hw2] at h
                    simp at h
                  · rw [hw2] at h
                    simp only [except_bind_ok, except_pure_eq, Except.ok.injEq] at h
                    subst h
                    rfl
      · simp only [if_true] at h
        split at h
        · simp only [except_pure_eq, Except.ok.injEq] at h
          subst h
          rfl
        · simp only [except_pure_eq, Except.ok.injEq] at h
          subst h
          rfl

theorem queryDeriversLoop_error (env : Env) (storePath : Path)
    (identifier user : String) (l : List String) (acc : List Path) (e : Err)
    (h : queryDeriversLoop env storePath identifier user l acc = .error e) :
    e = .notStatePathDrv storePath := by
  induction l generalizing acc with
  | nil => simp [queryDeriversLoop] at h
  | cons d rest ih =>
      unfold queryDeriversLoop at h
      split at h
      · cases h
        rfl
      · split at h
        · exact ih _ h
        · exact ih _ h

theorem queryDerivers_error (env : Env) (s : Store) (storePath : Path)
    (identifier user : String) (e : Err)
    (h : queryDerivers env s storePath identifier user = .error e) :
    errIsInvalidRef e = false := by
  unfold queryDerivers at h
  rcases hrp : isRealisablePath s storePath with e1 | b
  · rw [hrp] at h
    simp only [except_bind_error, Except.error.injEq] at h
    subst h
    rw [isRealisablePath_error s storePath _ hrp]
    rfl
  · rw [hrp] at h
    simp only [except_bind_ok] at h
    split at h
    · cases h
      rfl
    · split at h
      · cases h
        rfl
      · rw [queryDeriversLoop_error env storePath identifier user _ _ _ h]
        rfl

theorem addStateDeriver_ok_validPaths (env : Env) (s : Store) (sp d : Path)
    (s' : Store) (h : addStateDeriver env s sp d = .ok s') :
    s'.validPaths = s.validPaths := by
  unfold addStateDeriver at h
  rcases ha : assertStorePath env sp with e1 | u1
  · rw [ha] at h
    simp at h
  · rw [ha] at h
    simp only [except_bind_ok] at h
    split at h
    · cases h
      rfl
    · rcases hb : assertStorePath env d with e2 | u2
      · rw [hb] at h
        simp at h
      · rw [hb] at h
        simp only [except_bind_ok] at h
        rcases hrp : isRealisablePath s sp with e3 | b
        · rw [hrp] at h
          simp at h
        · rw [hrp] at h
          simp only [except_bind_ok] at h
          cases b
          · simp at h
          · simp only [Bool.not_true, Bool.false_eq_true, if_false] at h
            rcases hq : queryDerivers env s sp (stateOutputOf (env.drvs d)).stateIdentifier (stateOutputOf (env.drvs d)).username with e4 | lst
            · rw [hq] at h
              simp at h
            · rw [hq] at h
              simp only [except_bind_ok, except_pure_eq, Except.ok.injEq] at h
              subst h
              exact merge_fst_validPaths env s sp d lst true

theorem addStateDeriver_error (env : Env) (s : Store) (sp d : Path) (e : Err)
    (h : addStateDeriver env s sp d = .error e) : errIsInvalidRef e = false := by
  unfold addStateDeriver at h
  rcases ha : assertStorePath env sp with e1 | u1
  · rw [ha] at h
    simp only [except_bind_error, Except.error.injEq] at h
    subst h
    unfold assertStorePath at ha
    split at ha
    · cases ha
    · cases ha
      rfl
  · rw [ha] at h
    simp only [except_bind_ok] at h
    split at h
    · simp at h
    · rcases hb : assertStorePath env d with e2 | u2
      · rw [hb] at h
        simp only [except_bind_error, Except.error.injEq] at h
        subst h
        unfold assertStorePath at hb
        split at hb
        · cases hb
        · cases hb
          rfl
      · rw [hb] at h
        simp only [except_bind_ok] at h
        rcases hrp : isRealisablePath s sp with e3 | b
        · rw [hrp] at h
          simp only [except_bind_error, Except.error.injEq] at h
          subst h
          rw [isRealisablePath_error s sp _ hrp]
          rfl
        · rw [hrp] at h
          simp only [except_bind_ok] at h
          cases b
          · simp only [Bool.not_false, if_true] at h
            cases h
            rfl
          · simp only [Bool.not_true, Bool.false_eq_true, if_false] at h
            rcases hq : queryDerivers env s sp (stateOutputOf (env.drvs d)).stateIdentifier (stateOutputOf (env.drvs d)).username with e4 | lst
            · rw [hq] at h
              simp only [except_bind_error, Except.error.injEq] at h
              subst h
              exact queryDerivers_error env s sp _ _ _ hq
            · rw [hq] at h
              simp at h

theorem setDeriver_ok_validPaths (env : Env) (s : Store) (sp d : Path)
    (s' : Store) (h : setDeriver env s sp d = .ok s') :
    s'.validPaths = s.validPaths := by
  unfold setDeriver at h
  rcases ha : assertStorePath env sp with e1 | u1
  · rw [ha] at h
    simp at h
  · rw [ha] at h
    simp only [except_bind_ok] at h
    split at h
    · cases h
      rfl
    · rcases hb : assertStorePath env d with e2 | u2
      · rw [hb] at h
        simp at h
      · rw [hb] at h
        simp only [except_bind_ok] at h
        rcases hrp : isRealisablePath s sp with e3 | b
        · rw [hrp] at h
          simp at h
        · rw [hrp] at h
          simp only [except_bind_ok] at h
          cases b
          · simp at h
          · simp only [Bool.not_true, Bool.false_eq_true, if_false] at h
            split at h
            · exact addStateDeriver_ok_validPaths env s sp d s' h
            · cases h
              rfl

theorem setDeriver_error (env : Env) (s : Store) (sp d : Path) (e : Err)
    (h : setDeriver env s sp d = .error e) : errIsInvalidRef e = false := by
  unfold setDeriver at h
  rcases ha : assertStorePath env sp with e1 | u1
  · rw [ha] at h
    simp only [except_bind_error, Except.error.injEq] at h
    subst h
    unfold assertStorePath at ha
    split at ha
    · cases ha
    · cases ha
      rfl
  · rw [ha] at h
    simp only [except_bind_ok] at h
    split at h
    · simp at h
    · rcases hb : assertStorePath env d with e2 | u2
      · rw [hb] at h
        simp only [except_bind_error, Except.error.injEq] at h
        subst h
        unfold assertStorePath at hb
        split at hb
        · cases hb
        · cases hb
          rfl
      · rw [hb] at h
        simp only [except_bind_ok] at h
        rcases hrp : isRealisablePath s sp with e3 | b
        · rw [hrp] at h
          simp only [except_bind_error, Except.error.injEq] at h
          subst h
          rw [isRealisablePath_error s sp _ hrp]
          rfl
        · rw [hrp] at h
          simp only [except_bind_ok] at h
          cases b
          · simp only [Bool.not_false, if_true] at h
            cases h
            rfl
          · simp only [Bool.not_true, Bool.false_eq_true, if_false] at h
            split at h
            · exact addStateDeriver_error env s sp d e h
            · simp at h

theorem checkRefsValid_error (s : Store) (nps : List Path) (ipath : Path)
    (l : List Path) (e : Err) (h : checkRefsValid s nps ipath l = .error e) :
    ∃ j ∈ l, e = .invalidReference ipath j ∧ isValidPathTxn s j = false
      ∧ ¬ j ∈ nps := by
  induction l with
  | nil => simp [checkRefsValid] at h
  | cons j rest ih =>
      unfold checkRefsValid at h
      split at h
      · rename_i hcond
        cases h
        simp only [Bool.and_eq_true, Bool.not_eq_true'] at hcond
        refine ⟨j, List.mem_cons_self j rest, rfl, hcond.1, ?_⟩
        intro hm
        have : nps.contains j = true := by
          simpa using hm
        rw [this] at hcond
        exact absurd hcond.2 (by simp)
      · rcases ih h with ⟨j', hj', he, hv, hn⟩
        exact ⟨j', List.mem_cons_of_mem j hj', he, hv, hn⟩

theorem checkRefsValid_ok_forall (s : Store) (nps : List Path) (ipath : Path)
    (l : List Path) (h : checkRefsValid s nps ipath l = .ok ()) :
    ∀ j ∈ l, isValidPathTxn s j = true ∨ j ∈ nps := by
  induction l with
  | nil => intro j hj; cases hj
  | cons j rest ih =>
      unfold checkRefsValid at h
      split at h
      · simp at h
      · rename_i hcond
        intro j' hj'
        rcases List.mem_cons.mp hj' with hhead | htail
        · subst hhead
          cases hb : isValidPathTxn s j'
          · right
            rw [hb] at hcond
            simp only [Bool.not_false, Bool.true_and, Bool.not_eq_true,
              Bool.not_eq_false] at hcond
            simpa using hcond
          · left
            rfl
        · exact ih h j' htail

theorem isValid_setHash (env : Env) (s : Store) (q : Path) (hsh : String)
    (j : Path) :
    isValidPathTxn (setHash env s q hsh) j = true ↔
      (j = q ∨ isValidPathTxn s j = true) := by
  unfold isValidPathTxn setHash
  by_cases hj : j = q
  · subst hj
    simp [tlookup_tset_self]
  · rw [tlookup_tset_ne _ _ _ _ hj]
    simp [hj]

/-- The store after the pre-check of `registerValidPaths`' loop body: the
component case records the hash, the state case records the deriver. -/
def registerValidityWrite (env : Env) (s : Store) (b : Bool)
    (i : ValidPathInfo) : Store :=
  if b then setHash env s i.path i.hash else setStateValid s i.path i.deriver

theorem isValid_registerValidityWrite (env : Env) (s : Store) (b : Bool)
    (i : ValidPathInfo) (j : Path) :
    isValidPathTxn (registerValidityWrite env s b i) j = true ↔
      ((b = true ∧ j = i.path) ∨ isValidPathTxn s j = true) := by
  unfold registerValidityWrite
  cases b
  · simp [setStateValid, isValidPathTxn]
  · simp [isValid_setHash]

theorem registerOne_ok (env : Env) (nps : List Path) (s : Store)
    (i : ValidPathInfo) (s' : Store) (h : registerOne env nps s i = .ok s') :
    (∀ j ∈ i.references, isValidPathTxn s j = true ∨ j = i.path ∨ j ∈ nps)
    ∧ (∀ j, isValidPathTxn s' j = true → isValidPathTxn s j = true ∨ j = i.path)
    ∧ (∀ j, isValidPathTxn s j = true → isValidPathTxn s' j = true) := by
  unfold registerOne at h
  rcases hb : (if isStorePath env i.path then do
      assertStorePath env i.path
      pure true
    else do
      assertStatePath env i.path
      pure false : Except Err Bool) with e0 | b
  · rw [hb] at h
    simp at h
  · rw [hb] at h
    simp only [except_bind_ok] at h
    rcases hsr : setReferences env
        (if b then setHash env s i.path i.hash else setStateValid s i.path i.deriver)
        i.path i.references i.stateReferences i.revision with e1 | s2
    · rw [hsr] at h
      simp at h
    · rw [hsr] at h
      simp only [except_bind_ok] at h
      have hs2v : s2.validPaths =
          (registerValidityWrite env s b i).validPaths :=
        setReferences_ok_validPaths env _ i.path i.references i.stateReferences
          i.revision s2 hsr
      rcases hchk : checkRefsValid s2 nps i.path i.references with e2 | u2
      · rw [hchk] at h
        simp at h
      · cases u2
        rw [hchk] at h
        simp only [except_bind_ok] at h
        have hvalid2 : ∀ j, isValidPathTxn s2 j = isValidPathTxn
            (registerValidityWrite env s b i) j := by
          intro j
          unfold isValidPathTxn
          rw [hs2v]
        have hs'v : s'.validPaths = s2.validPaths := by
          cases b
          · simp only [Bool.false_eq_true, if_false, except_pure_eq,
              Except.ok.injEq] at h
            rw [← h]
          · simp only [if_true] at h
            exact setDeriver_ok_validPaths env s2 i.path i.deriver s' h
        have hvalid' : ∀ j, isValidPathTxn s' j = isValidPathTxn s2 j := by
          intro j
          unfold isValidPathTxn
          rw [hs'v]
        refine ⟨?_, ?_, ?_⟩
        · intro j hj
          rcases checkRefsValid_ok_forall s2 nps i.path i.references hchk j hj
            with hv | hn
          · rw [hvalid2 j] at hv
            rcases (isValid_registerValidityWrite env s b i j).mp hv with
              ⟨_, hjp⟩ | hvs
            · exact Or.inr (Or.inl hjp)
            · exact Or.inl hvs
          · exact Or.inr (Or.inr hn)
        · intro j hv
          rw [hvalid' j, hvalid2 j] at hv
          rcases (isValid_registerValidityWrite env s b i j).mp hv with
            ⟨_, hjp⟩ | hvs
          · exact Or.inr hjp
          · exact Or.inl hvs
        · intro j hv
          rw [hvalid' j, hvalid2 j]
          exact (isValid_registerValidityWrite env s b i j).mpr (Or.inr hv)

theorem registerShapeCheck_not_invalidRef (env : Env) (q : Path) (e : Err)
    (h : (if isStorePath env q then do
        assertStorePath env q
        pure true
      else do
        assertStatePath env q
        pure false : Except Err Bool) = .error e) :
    errIsInvalidRef e = false := by
  split at h
  · rcases ha : assertStorePath env q with ea | ua
    · rw [ha] at h
      simp only [except_bind_error, Except.error.injEq] at h
      subst h
      unfold assertStorePath at ha
      split at ha
      all_goals cases ha
      all_goals rfl
    · rw [ha] at h
      simp at h
  · rcases ha : assertStatePath env q with ea | ua
    · rw [ha] at h
      simp only [except_bind_error, Except.error.injEq] at h
      subst h
      unfold assertStatePath at ha
      split at ha
      all_goals cases ha
      all_goals rfl
    · rw [ha] at h
      simp at h

theorem registerOne_error_invalidRef (env : Env) (nps : List Path) (s : Store)
    (i : ValidPathInfo) (p j : Path)
    (h : registerOne env nps s i = .error (.invalidReference p j)) :
    j ∈ i.references ∧ isValidPathTxn s j = false ∧ ¬ j ∈ nps := by
  unfold registerOne at h
  rcases hb : (if isStorePath env i.path then do
      assertStorePath env i.path
      pure true
    else do
      assertStatePath env i.path
      pure false : Except Err Bool) with e0 | b
  · rw [hb] at h
    simp only [except_bind_error, Except.error.injEq] at h
    exfalso
    have := registerShapeCheck_not_invalidRef env i.path e0 hb
    rw [h] at this
    simp [errIsInvalidRef] at this
  · rw [hb] at h
    simp only [except_bind_ok] at h
    rcases hsr : setReferences env
        (if b then setHash env s i.path i.hash else setStateValid s i.path i.deriver)
        i.path i.references i.stateReferences i.revision with e1 | s2
    · rw [hsr] at h
      simp only [except_bind_error, Except.error.injEq] at h
      exfalso
      have := setReferences_error env _ i.path i.references i.stateReferences
        i.revision e1 hsr
      rw [h] at this
      simp [errIsInvalidRef] at this
    · rw [hsr] at h
      simp only [except_bind_ok] at h
      have hs2v : s2.validPaths =
          (registerValidityWrite env s b i).validPaths :=
        setReferences_ok_validPaths env _ i.path i.references i.stateReferences
          i.revision s2 hsr
      have hvalid2 : ∀ j0, isValidPathTxn s2 j0 = isValidPathTxn
          (registerValidityWrite env s b i) j0 := by
        intro j0
        unfold isValidPathTxn
        rw [hs2v]
      rcases hchk : checkRefsValid s2 nps i.path i.references with e2 | u2
      · rw [hchk] at h
        simp only [except_bind_error, Except.error.injEq] at h
        rcases checkRefsValid_error s2 nps i.path i.references e2 hchk with
          ⟨j', hj', he, hv, hn⟩
        rw [h] at he
        injection he with hp hjj
        subst hjj
        refine ⟨hj', ?_, hn⟩
        cases hvs : isValidPathTxn s j
        · rfl
        · exfalso
          have : isValidPathTxn s2 j = true := by
            rw [hvalid2 j]
            exact (isValid_registerValidityWrite env s b i j).mpr (Or.inr hvs)
          rw [this] at hv
          cases hv
      · cases u2
        rw [hchk] at h
        simp only [except_bind_ok] at h
        exfalso
        cases b
        · simp at h
        · simp only [if_true] at h
          have := setDeriver_error env s2 i.path i.deriver _ h
          simp [errIsInvalidRef] at this

theorem registerLoop_ok (env : Env) (nps : List Path) :
    ∀ (l : List ValidPathInfo) (s s' : Store),
      (∀ i ∈ l, i.path ∈ nps) →
      registerLoop env nps s l = .ok s' →
      ∀ i ∈ l, ∀ j ∈ i.references,
        isValidPathTxn s j = true ∨ j ∈ nps := by
  intro l
  induction l with
  | nil => intro s s' _ _ i hi; cases hi
  | cons i0 rest ih =>
      intro s s' hnps h i hi j hj
      unfold registerLoop at h
      rcases h1 : registerOne env nps s i0 with e0 | s1
      · rw [h1] at h
        simp at h
      · rw [h1] at h
        simp only [except_bind_ok] at h
        rcases List.mem_cons.mp hi with hhead | htail
        · subst hhead
          rcases (registerOne_ok env nps s i s1 h1).1 j hj with hv | hip | hn
          · exact Or.inl hv
          · subst hip
            exact Or.inr (hnps i (List.mem_cons_self _ _))
          · exact Or.inr hn
        · have hnps' : ∀ i' ∈ rest, i'.path ∈ nps :=
            fun i' hi' => hnps i' (List.mem_cons_of_mem i0 hi')
          rcases ih s1 s' hnps' h i htail j hj with hv | hn
          · rcases (registerOne_ok env nps s i0 s1 h1).2.1 j hv with hvs | hjp
            · exact Or.inl hvs
            · subst hjp
              exact Or.inr (hnps i0 (List.mem_cons_self _ _))
          · exact Or.inr hn

theorem registerLoop_error_invalidRef (env : Env) (nps : List Path) :
    ∀ (l : List ValidPathInfo) (s : Store) (p j : Path),
      registerLoop env nps s l = .error (.invalidReference p j) →
      isValidPathTxn s j = false ∧ ¬ j ∈ nps ∧ ∃ i ∈ l, j ∈ i.references := by
  intro l
  induction l with
  | nil => intro s p j h; simp [registerLoop] at h
  | cons i0 rest ih =>
      intro s p j h
      unfold registerLoop at h
      rcases h1 : registerOne env nps s i0 with e0 | s1
      · rw [h1] at h
        simp only [except_bind_error, Except.error.injEq] at h
        subst h
        rcases registerOne_error_invalidRef env nps s i0 p j h1 with ⟨hm, hv, hn⟩
        exact ⟨hv, hn, i0, List.mem_cons_self i0 rest, hm⟩
      · rw [h1] at h
        simp only [except_bind_ok] at h
        rcases ih s1 p j h with ⟨hv1, hn, i', hi', hm⟩
        refine ⟨?_, hn, i', List.mem_cons_of_mem i0 hi', hm⟩
        cases hvs : isValidPathTxn s j
        · rfl
        · exfalso
          have := (registerOne_ok env nps s i0 s1 h1).2.2 j hvs
          rw [this] at hv1
          cases hv1

/-- Claim C2: `registerValidPaths` first collects the batch's paths, then
per info sets validity, writes references and checks every component
reference against (already valid ∪ batch).  Registration succeeds only if
every component reference of every info is already valid or among the batch
paths, and the closure-check error `invalidReference` is thrown only when
some reference is neither already valid nor in the batch. -/
theorem claim_C2_registerValidPaths_closure (env : Env) (s : Store)
    (infos : List ValidPathInfo) :
    (∀ s', registerValidPaths env s infos = .ok s' →
      ∀ i ∈ infos, ∀ j ∈ i.references,
        isValidPathTxn s j = true ∨ j ∈ infos.map (fun x => x.path))
    ∧ (∀ p j, registerValidPaths env s infos = .error (.invalidReference p j) →
      isValidPathTxn s j = false
        ∧ ¬ j ∈ infos.map (fun x => x.path)
        ∧ ∃ i ∈ infos, j ∈ i.references) := by
  constructor
  · intro s' h
    have h' : registerLoop env (infos.map (fun x => x.path)) s infos = .ok s' := h
    exact registerLoop_ok env (infos.map (fun x => x.path)) infos s s'
      (fun i hi => List.mem_map_of_mem (fun x => x.path) hi) h'
  · intro p j h
    have h' : registerLoop env (infos.map (fun x => x.path)) s infos
        = .error (.invalidReference p j) := h
    exact registerLoop_error_invalidRef env (infos.map (fun x => x.path))
      infos s p j h'

def regInfoA : ValidPathInfo :=
  { path := subPathP, hash := "h", references := ["/nix/store/rrr-r"] }

def regInfoB : ValidPathInfo := { path := "/nix/store/rrr-r", hash := "h" }

/-- Claim C2 witness: registering the two-element batch where the first
info references the second succeeds, so the theorem yields that every
reference is already valid or in the batch; and the singleton batch without
its reference fails with the closure-check error, so the theorem yields the
offending reference. -/
theorem claim_C2_registerValidPaths_witness :
    (∀ i ∈ [regInfoA, regInfoB], ∀ j ∈ i.references,
      isValidPathTxn ({} : Store) j = true
        ∨ j ∈ ([regInfoA, regInfoB].map (fun x => x.path)))
    ∧ (isValidPathTxn ({} : Store) "/nix/store/rrr-r" = false
        ∧ ¬ "/nix/store/rrr-r" ∈ ([regInfoA].map (fun x => x.path))
        ∧ ∃ i ∈ [regInfoA], "/nix/store/rrr-r" ∈ i.references) := by
  constructor
  · exact (claim_C2_registerValidPaths_closure envW {} [regInfoA, regInfoB]).1
      ({ validPaths := [("/nix/store/rrr-r", "sha256:h"), (subPathP, "sha256:h")], refsCC := [(subPathP, ["/nix/store/rrr-r"])], refsCS := [(subPathP, [])] } : Store)
      (by decide)
  · exact (claim_C2_registerValidPaths_closure envW {} [regInfoA]).2
      subPathP "/nix/store/rrr-r" (by decide)

end NixStore
